import Mathlib

/-!
Verification development for the book-swap marketplace bot.

The definitions below are a shallow embedding of the repository's core:
the data model (`app/db/models.py`), the catalog query helpers
(`app/bot/utils.py`), the conversation handlers (`app/bot/handlers.py`),
the callback-data schema (`app/bot/keyboards.py`) and the read-only web
facade (`app/web/app.py`).  Database tables are embedded as Lean lists,
SQL queries as list transformations, and each aiogram handler as a pure
function from bot state and event inputs to a new state plus replies.
-/

namespace BookSwap

/-- `BookCondition` enum from `app/db/models.py` (`str`-valued enum). -/
inductive BookCondition
  | new
  | like_new
  | good
  | acceptable
  | poor
deriving DecidableEq, Repr

/-- The `.value` string of each enum member, as declared in `models.py`. -/
def BookCondition.value : BookCondition → String
  | .new => "new"
  | .like_new => "like_new"
  | .good => "good"
  | .acceptable => "acceptable"
  | .poor => "poor"

/-- All enum members, in declaration order. -/
def BookCondition.all : List BookCondition :=
  [.new, .like_new, .good, .acceptable, .poor]

/-- `BookCondition(s)` value lookup: `some c` iff `s` is exactly one of the
declared values (Python `Enum` lookup by value is case-sensitive and raises
`ValueError` otherwise, embedded here as `none`). -/
def BookCondition.fromValue (s : String) : Option BookCondition :=
  BookCondition.all.find? (fun c => c.value = s)

/-- `condition_label` from `app/bot/utils.py` with the identity translation
(the English catalog): the human-facing label of each condition. -/
def condition_label : BookCondition → String
  | .new => "New"
  | .like_new => "Like new"
  | .good => "Good"
  | .acceptable => "Acceptable"
  | .poor => "Poor"

/-- ASCII lowercasing; embeds Python's `.lower()` / `.casefold()` on the
ASCII text the handlers compare.  (Implemented over the character list so
every theorem witness can be evaluated by the kernel.) -/
def lowerStr (s : String) : String :=
  String.mk (s.toList.map Char.toLower)

/-- Python's `str.strip()`: drop leading and trailing whitespace. -/
def trimChars (cs : List Char) : List Char :=
  ((cs.dropWhile Char.isWhitespace).reverse.dropWhile
    Char.isWhitespace).reverse

/-- `str.strip()` on a `String` (kernel-evaluable replacement for the
built-in trim). -/
def trimStr (s : String) : String :=
  String.mk (trimChars s.toList)

/-- Row of the `users` table (`User` model in `app/db/models.py`).
`username` and `display_name` are nullable columns; `none` also stands for
a Python empty/falsy value. -/
structure User where
  id : Nat
  telegram_id : Nat
  username : Option String
  display_name : Option String
  created_at : Nat
deriving DecidableEq, Repr

/-- `User.public_display` from `models.py`: `@username`, else display name,
else `tg:<telegram_id>`. -/
def User.public_display (u : User) : String :=
  match u.username with
  | some s => "@" ++ s
  | none =>
    match u.display_name with
    | some d => d
    | none => "tg:" ++ toString u.telegram_id

/-- Row of the `books` table (`Book` model in `app/db/models.py`).
The `Numeric(10,2)` price is embedded as an integer number of cents: the
`quantize_price` validator guarantees every stored price is quantized to
two fractional digits.  `created_at` is an abstract timestamp. -/
structure Book where
  id : Nat
  created_at : Nat
  title : String
  author : Option String
  priceCents : Int
  condition : BookCondition
  description : Option String
  is_sold : Bool
  seller_id : Nat
deriving DecidableEq, Repr

/-- `Book.mark_sold` from `models.py`: sets the flag (in memory). -/
def Book.mark_sold (b : Book) : Book :=
  { b with is_sold := true }

/-- The persisted database state: the two tables plus the autoincrement
counters that assign primary keys on insert. -/
structure DB where
  users : List User
  books : List Book
  nextUserId : Nat
  nextBookId : Nat
deriving DecidableEq, Repr

/-- All suffixes of a character list, longest first (the list itself down
to `[]`). -/
def suffixesOf : List Char → List (List Char)
  | [] => [[]]
  | c :: cs => (c :: cs) :: suffixesOf cs

/-- SQL `LIKE` on lowercased ASCII text: `%` matches any (possibly empty)
character sequence — i.e. the rest of the pattern matches some suffix of
the text — `_` matches exactly one character, any other pattern character
matches itself.  This is the semantics of the `func.lower(col).like(term)`
filters in `app/bot/utils.py`. -/
def likeMatch : List Char → List Char → Bool
  | [], s => s.isEmpty
  | '%' :: ps, s => (suffixesOf s).any (fun t => likeMatch ps t)
  | '_' :: ps, s =>
    (match s with
     | [] => false
     | _ :: cs => likeMatch ps cs)
  | p :: ps, s =>
    (match s with
     | [] => false
     | c :: cs => p == c && likeMatch ps cs)

/-- The `LIKE` pattern built by `search_books`:
`search_term = f"%{query.strip().lower()}%"`. -/
def searchTerm (query : String) : List Char :=
  '%' :: ((lowerStr (trimStr query)).toList ++ ['%'])

/-- One `func.lower(col).like(search_term)` disjunct on a nullable column:
SQL three-valued logic keeps a row only when the disjunction is TRUE, and
a NULL column makes its own disjunct unknown, so `none` contributes
`false`. -/
def optLike (pat : List Char) : Option String → Bool
  | none => false
  | some s => likeMatch pat (lowerStr s).toList

/-- The row filter of `search_books`: title OR author OR description. -/
def matchesQuery (query : String) (b : Book) : Bool :=
  likeMatch (searchTerm query) (lowerStr b.title).toList ||
    optLike (searchTerm query) b.author ||
    optLike (searchTerm query) b.description

/-- Ordering used by every catalog query:
`ORDER BY created_at DESC`.  The queries name no secondary sort key, so
this relation is all the SQL contract pins down. -/
def laterFirst (a b : Book) : Prop :=
  b.created_at ≤ a.created_at

instance : DecidableRel laterFirst :=
  fun a b => Nat.decLe b.created_at a.created_at

instance : IsTotal Book laterFirst :=
  ⟨fun a b => Nat.le_total b.created_at a.created_at⟩

instance : IsTrans Book laterFirst :=
  ⟨fun _ _ _ h1 h2 => Nat.le_trans h2 h1⟩

/-- One admissible ordered result set of a catalog query (an insertion
sort by `laterFirst`).  Because `ORDER BY created_at DESC` carries no
tie-breaker, the engine may return equal-timestamp rows in any relative
order; this function fixes one such order so the queries stay
executable, and `IsEngineOrdering` below captures the full contract. -/
def sortLaterFirst (rows : List Book) : List Book :=
  rows.insertionSort laterFirst

/-- What `ORDER BY created_at DESC` (with no secondary key) actually
guarantees about the result set: it is some permutation of the filtered
rows that is sorted by `laterFirst`.  The relative order of rows with
equal `created_at` is engine-dependent. -/
def IsEngineOrdering (rows ordered : List Book) : Prop :=
  rows.Perm ordered ∧ List.Sorted laterFirst ordered

instance (rows ordered : List Book) :
    Decidable (IsEngineOrdering rows ordered) :=
  inferInstanceAs (Decidable (_ ∧ _))

/-- `total_pages = max(1, (total + per_page - 1) // per_page) if total else 1`
(identical lines in `paginate_books` and `search_books`). -/
def totalPagesOf (total per_page : Nat) : Nat :=
  if total = 0 then 1 else max 1 ((total + per_page - 1) / per_page)

/-- `OFFSET (page-1)*per_page LIMIT per_page` applied to the ordered rows. -/
def pageSlice (rows : List Book) (page per_page : Nat) : List Book :=
  (rows.drop ((page - 1) * per_page)).take per_page

/-- Shared shape of the two paginated queries in `app/bot/utils.py`: order
the filtered rows, slice the requested page, and report
`(books, total, total_pages)` where `total` counts all filtered rows. -/
def runPagedQuery (rows : List Book) (page per_page : Nat) :
    List Book × Nat × Nat :=
  (pageSlice (sortLaterFirst rows) page per_page,
   rows.length,
   totalPagesOf rows.length per_page)

/-- `paginate_books` from `app/bot/utils.py`. -/
def paginate_books (db : DB) (page per_page : Nat)
    (include_sold : Bool := false) : List Book × Nat × Nat :=
  let rows := if include_sold then db.books
              else db.books.filter (fun b => !b.is_sold)
  runPagedQuery rows page per_page

/-- `search_books` from `app/bot/utils.py`: blank queries return
`([], 0, 1)` before any SQL statement is built; otherwise the `LIKE`
filter conjunction with the unsold filter is paginated like browse. -/
def search_books (db : DB) (query : String) (page per_page : Nat)
    (include_sold : Bool := false) : List Book × Nat × Nat :=
  if trimStr query = "" then ([], 0, 1)
  else
    let rows := if include_sold then db.books.filter (matchesQuery query)
                else db.books.filter
                  (fun b => matchesQuery query b && !b.is_sold)
    runPagedQuery rows page per_page

/-- Control flow of `search_books`: the only early return is the blank
query, every other call executes the two SQL statements. -/
def search_touches_storage (query : String) : Bool :=
  !(trimStr query = "")

/-- `get_user_books` from `app/bot/utils.py`. -/
def get_user_books (db : DB) (seller_id : Nat)
    (include_sold : Bool := false) : List Book :=
  let rows := db.books.filter (fun b => b.seller_id = seller_id)
  let rows := if include_sold then rows
              else rows.filter (fun b => !b.is_sold)
  sortLaterFirst rows

/-- `get_book_by_id` from `app/bot/utils.py`
(`scalar_one_or_none` on a primary-key lookup; callback payloads carry
the id as a plain integer). -/
def get_book_by_id (db : DB) (book_id : Int) : Option Book :=
  db.books.find? (fun b => (b.id : Int) = book_id)

/-- The inbound Telegram identity of the acting user (the fields of
`aiogram.types.User` the handlers read).  `none` models a missing or
empty (falsy) value. -/
structure TgUser where
  telegram_id : Nat
  username : Option String
  full_name : Option String
  first_name : Option String
deriving DecidableEq, Repr

/-- `tg_user.full_name or tg_user.first_name or tg_user.username or
str(tg_user.id)` from `ensure_user`. -/
def displayNameOf (tg : TgUser) : String :=
  match tg.full_name with
  | some s => s
  | none =>
    match tg.first_name with
    | some s => s
    | none =>
      match tg.username with
      | some s => s
      | none => toString tg.telegram_id

/-- `ensure_user` from `app/bot/utils.py`: look the user up by
`telegram_id`; insert a fresh row when absent, otherwise refresh
`username` and `display_name` in place.  Returns the (new) row. -/
def ensure_user (db : DB) (tg : TgUser) : DB × User :=
  let display_name := displayNameOf tg
  match db.users.find? (fun u => u.telegram_id = tg.telegram_id) with
  | none =>
    let u : User :=
      { id := db.nextUserId
        telegram_id := tg.telegram_id
        username := tg.username
        display_name := some display_name
        created_at := 0 }
    ({ db with users := db.users ++ [u], nextUserId := db.nextUserId + 1 }, u)
  | some u =>
    let u' : User :=
      { u with username := tg.username, display_name := some display_name }
    ({ db with
        users := db.users.map (fun v => if v.id = u.id then u' else v) }, u')

/-- `buyer_contact_repr` from `app/bot/utils.py`. -/
def buyer_contact_repr (tg : TgUser) : String :=
  match tg.username with
  | some s => "@" ++ s
  | none =>
    match tg.full_name with
    | some s => s
    | none => "tg:" ++ toString tg.telegram_id

/-! ### Price input (`Decimal` parsing and quantization)

`collect_price` runs `Decimal(text)` and rejects negative values;
`Book.quantize_price` quantizes to two fractional digits with
`ROUND_HALF_UP` (ties away from zero) and rejects negative results.
A finite decimal numeral with digits `m` scaled by `10^k` denotes the
rational `m / 10^k`. -/

/-- The value classes `Decimal(text)` can produce at the price stage: a
finite decimal (value `m / 10^k`), a NaN (quiet or signaling, either
sign — both make the `< 0` comparison raise), a signed infinity, or text
the constructor rejects (`InvalidOperation`, embedded as
`nonNumeric`). -/
inductive PriceText
  | nonNumeric
  | nan
  | inf (neg : Bool)
  | numeric (m : Int) (k : Nat)
deriving DecidableEq, Repr

/-- Digit-string value accumulator. -/
def digitsToNat (cs : List Char) : Nat :=
  cs.foldl (fun acc c => acc * 10 + (c.toNat - '0'.toNat)) 0

/-- Whether every character is an ASCII digit. -/
def allDigits (cs : List Char) : Bool :=
  cs.all (fun c => c.isDigit)

/-- Parse an unsigned decimal coefficient `digits [. digits]`,
`digits .` or `. digits` (at least one digit overall) into `(m, k)` with
value `m / 10^k`. -/
def parseUnsignedDec (cs : List Char) : Option (Nat × Nat) :=
  match cs.splitOn '.' with
  | [intPart] =>
    if intPart ≠ [] ∧ allDigits intPart then some (digitsToNat intPart, 0)
    else none
  | [intPart, fracPart] =>
    if (intPart ≠ [] ∨ fracPart ≠ []) ∧ allDigits intPart ∧
        allDigits fracPart then
      some (digitsToNat (intPart ++ fracPart), fracPart.length)
    else none
  | _ => none

/-- Parse the signed digits of an exponent part. -/
def parseExpDigits (cs : List Char) : Option Int :=
  match cs with
  | '+' :: rest =>
    if rest ≠ [] ∧ allDigits rest then some ((digitsToNat rest : Int))
    else none
  | '-' :: rest =>
    if rest ≠ [] ∧ allDigits rest then some (-(digitsToNat rest : Int))
    else none
  | rest =>
    if rest ≠ [] ∧ allDigits rest then some ((digitsToNat rest : Int))
    else none

/-- Parse a numeric body `coefficient [e exponent]` (already lowercased)
into `(m0, k0, e)` with value `m0 / 10^k0 * 10^e`. -/
def parseNumericBody (cs : List Char) : Option (Nat × Nat × Int) :=
  match cs.splitOn 'e' with
  | [coeff] => (parseUnsignedDec coeff).map (fun mk => (mk.1, mk.2, (0 : Int)))
  | [coeff, expPart] =>
    match parseUnsignedDec coeff, parseExpDigits expPart with
    | some (m0, k0), some e => some (m0, k0, e)
    | _, _ => none
  | _ => none

/-- Normalize `± m0 / 10^k0 * 10^e` to the `m / 10^k` form. -/
def decOfSci (neg : Bool) (m0 k0 : Nat) (e : Int) : PriceText :=
  let sign : Int := if neg then -1 else 1
  if (k0 : Int) ≤ e then .numeric (sign * m0 * 10 ^ (e - k0).toNat) 0
  else .numeric (sign * m0) ((k0 : Int) - e).toNat

/-- A `nan` or `snan` body with optional diagnostic digits. -/
def isNanBody (cs : List Char) : Bool :=
  match cs with
  | 'n' :: 'a' :: 'n' :: rest => allDigits rest
  | 's' :: 'n' :: 'a' :: 'n' :: rest => allDigits rest
  | _ => false

/-- An `inf` / `infinity` body. -/
def isInfBody (cs : List Char) : Bool :=
  cs = ['i', 'n', 'f'] || cs = ['i', 'n', 'f', 'i', 'n', 'i', 't', 'y']

/-- `Decimal(text)`: the constructor strips the input and removes every
underscore, then matches case-insensitively an optional sign followed by
a NaN body, an infinity body, or a coefficient with optional exponent;
anything else raises `InvalidOperation` (embedded as `nonNumeric`). -/
def parsePrice (text : String) : PriceText :=
  let cs := ((trimStr text).toList.filter (fun c => !(c = '_'))).map
    Char.toLower
  let (neg, body) :=
    match cs with
    | '+' :: rest => (false, rest)
    | '-' :: rest => (true, rest)
    | rest => (false, rest)
  if isNanBody body then .nan
  else if isInfBody body then .inf neg
  else
    match parseNumericBody body with
    | some (m0, k0, e) => decOfSci neg m0 k0 e
    | none => .nonNumeric

/-- `Decimal.quantize(Decimal("0.01"), rounding=ROUND_HALF_UP)` applied to
the value `m / 10^k`: the price in cents, rounding ties away from zero.
For `k > 2` the divisor `d = 10^(k-2)` is even, so adding `d/2` to the
magnitude and flooring implements half-up. -/
def centsOf (m : Int) (k : Nat) : Int :=
  if k ≤ 2 then m * 10 ^ (2 - k)
  else
    let d : Int := 10 ^ (k - 2)
    if 0 ≤ m then (m + d / 2) / d else -(((-m) + d / 2) / d)

/-- A price value the stage can accept and stash (as `str(Decimal)`,
which round-trips it): a finite decimal, or `+Infinity` — the comparison
`price < 0` is false for it, so `collect_price` lets it through. -/
inductive StoredPrice
  | fin (m : Int) (k : Nat)
  | posInf
deriving DecidableEq, Repr

/-- `Book.quantize_price` from `models.py`: quantize to cents, raising
(`none`) on a negative result; quantizing an infinity raises
`InvalidOperation`. -/
def quantize_price : StoredPrice → Option Int
  | .fin m k =>
    let q := centsOf m k
    if q < 0 then none else some q
  | .posInf => none

/-- `strip_and_validate_strings` from `models.py`: strip, mapping the
empty result to NULL. -/
def stripToNull : Option String → Option String
  | none => none
  | some s => if trimStr s = "" then none else some (trimStr s)

/-! ### Session state (aiogram FSM, one logical user) -/

/-- The FSM stages declared in `app/bot/handlers.py`
(`PostBookStates` and `SearchStates`). -/
inductive Stage
  | title
  | author
  | condition
  | price
  | description
  | confirm
  | searchQuery
deriving DecidableEq, Repr

/-- The `state.update_data` bag: each field `some v` when the key is
present.  The stored author/description value is itself optional
(`'skip'` stores `None`).  A stored price is kept as its exact decimal
value `(m, k)`; `str(Decimal)` round-trips it. -/
structure SessionData where
  title : Option String := none
  author : Option (Option String) := none
  condition : Option BookCondition := none
  price : Option StoredPrice := none
  description : Option (Option String) := none
  search_query : Option String := none
deriving DecidableEq, Repr

/-- Per-user FSM state: current stage (`none` when no flow is active) plus
the data bag.  `state.clear()` resets both. -/
structure Session where
  stage : Option Stage := none
  data : SessionData := {}
deriving DecidableEq, Repr

/-- The bot state touched by one user's events: the shared database and
that user's session. -/
structure BotState where
  db : DB
  session : Session
deriving DecidableEq, Repr

/-- The user-visible outputs a handler can produce, one tag per message
template in `app/bot/handlers.py`. -/
inductive Reply
  | welcome
  | helpText
  | notInProcess
  | canceled
  | askTitle
  | provideTitle
  | askAuthor
  | askCondition
  | chooseCondition
  | askPrice
  | invalidPrice
  | askDescription
  | confirmPreview
  | listingCancelled
  | invalidPriceData
  | bookListed (book_id : Nat)
  | menuAfterPost
  | noBooksAvailable
  | browsePageShown (page total_pages : Nat)
  | searchPrompt
  | enterSearchTerm
  | noResultsFor (query : String)
  | searchResultsShown (query : String) (page total_pages : Nat)
  | searchQueryNotFound
  | missingBookInfo
  | noLongerAvailable
  | sellerContactFor (title contact : String)
  | contactSent
  | cannotModify
  | alreadySold
  | markedSold
  | markedSoldEdit
  | noActiveListings
  | myListingsShown (ids : List Nat)
  | invalidAction
deriving DecidableEq, Repr

/-- Result of running one handler: the new bot state, the replies shown to
the acting user, the number of seller-notification send attempts, whether
a catalog SELECT was executed, and whether an exception propagated out of
the handler (logged by `log_errors`/aiogram, no user-visible reply). -/
structure HandlerOut where
  state : BotState
  replies : List Reply
  attempts : Nat := 0
  queried : Bool := false
  raised : Bool := false
deriving DecidableEq, Repr

/-- Outcome of the single `bot.send_message` to the seller: delivered,
seller unreachable (`TelegramForbiddenError` — blocked the bot), gone
(`TelegramNotFound`), or some other transport error. -/
inductive Delivery
  | ok
  | forbidden
  | notFound
  | otherError
deriving DecidableEq, Repr

/-- `notify_seller_of_interest` from `app/bot/utils.py`: one send attempt;
`TelegramForbiddenError`/`TelegramNotFound` are swallowed (`some ()`),
any other exception propagates (`none`).  The second component counts
send attempts (always exactly one, there is no retry). -/
def notify_seller_of_interest (d : Delivery) : Option Unit × Nat :=
  match d with
  | .ok => (some (), 1)
  | .forbidden => (some (), 1)
  | .notFound => (some (), 1)
  | .otherError => (none, 1)

/-! ### Conversation flow handlers (`app/bot/handlers.py`) -/

/-- `handle_start`: clear the session, upsert the user, greet. -/
def handle_start (st : BotState) (tg : TgUser) : HandlerOut :=
  let (db1, _) := ensure_user st.db tg
  ⟨⟨db1, {}⟩, [.welcome], 0, false, false⟩

/-- `handle_help`. -/
def handle_help (st : BotState) : HandlerOut :=
  ⟨st, [.helpText], 0, false, false⟩

/-- `handle_cancel`. -/
def handle_cancel (st : BotState) : HandlerOut :=
  match st.session.stage with
  | none => ⟨st, [.notInProcess], 0, false, false⟩
  | some _ => ⟨⟨st.db, {}⟩, [.canceled], 0, false, false⟩

/-- `start_post_flow`: clear, upsert the user, enter the title stage. -/
def start_post_flow (st : BotState) (tg : TgUser) : HandlerOut :=
  let (db1, _) := ensure_user st.db tg
  ⟨⟨db1, { stage := some .title }⟩, [.askTitle], 0, false, false⟩

/-- `collect_title`: an empty (stripped) title re-prompts without
advancing; otherwise store it and move to the author stage. -/
def collect_title (st : BotState) (text : String) : HandlerOut :=
  let t := trimStr text
  if t = "" then ⟨st, [.provideTitle], 0, false, false⟩
  else
    ⟨⟨st.db,
      { stage := some .author, data := { st.session.data with title := some t } }⟩,
     [.askAuthor], 0, false, false⟩

/-- `collect_author`: `'skip'` stores `None`, anything else stores the
stripped text; always advances. -/
def collect_author (st : BotState) (text : String) : HandlerOut :=
  let t := trimStr text
  let author := if lowerStr t = "skip" then none else some t
  ⟨⟨st.db,
    { stage := some .condition,
      data := { st.session.data with author := some author } }⟩,
   [.askCondition], 0, false, false⟩

/-- `CONDITION_MAP` lookup from `handlers.py`: the casefolded input
against the casefolded condition labels. -/
def conditionFromLabel (t : String) : Option BookCondition :=
  BookCondition.all.find? (fun c => lowerStr (condition_label c) = t)

/-- `collect_condition`: unrecognized labels re-prompt without advancing. -/
def collect_condition (st : BotState) (text : String) : HandlerOut :=
  let t := lowerStr (trimStr text)
  match conditionFromLabel t with
  | none => ⟨st, [.chooseCondition], 0, false, false⟩
  | some c =>
    ⟨⟨st.db,
      { stage := some .price,
        data := { st.session.data with condition := some c } }⟩,
     [.askPrice], 0, false, false⟩

/-- The `try` block of `collect_price`: `Decimal(text)` then `price < 0`
raises.  NaN input makes the comparison raise (`InvalidOperation`) and a
negative value — `-Infinity` included — raises deliberately, so what
passes is a finite non-negative numeral or `+Infinity`. -/
def priceAccepted : PriceText → Option StoredPrice
  | .nonNumeric => none
  | .nan => none
  | .inf neg => if neg then none else some .posInf
  | .numeric m k => if m < 0 then none else some (.fin m k)

/-- `collect_price`: invalid input re-prompts without advancing; a valid
non-negative numeral is stored (as `str(price)`, value-preserving) and
the flow moves to the description stage. -/
def collect_price (st : BotState) (text : String) : HandlerOut :=
  match priceAccepted (parsePrice text) with
  | none => ⟨st, [.invalidPrice], 0, false, false⟩
  | some sp =>
    ⟨⟨st.db,
      { stage := some .description,
        data := { st.session.data with price := some sp } }⟩,
     [.askDescription], 0, false, false⟩

/-- `collect_description`: `'skip'` stores `None`; always advances to the
confirmation stage and shows the preview. -/
def collect_description (st : BotState) (text : String) : HandlerOut :=
  let t := trimStr text
  let descr := if lowerStr t = "skip" then none else some t
  ⟨⟨st.db,
    { stage := some .confirm,
      data := { st.session.data with description := some descr } }⟩,
   [.confirmPreview], 0, false, false⟩

/-- The pydantic construction `Book(...)` in `finish_post_flow`: the
validators strip the strings (empty → NULL, a NULL title fails the
required-field check) and quantize the price (negative → error).
`none` embeds a raised `ValidationError`. -/
def mkBook (id now : Nat) (title : String) (author : Option String)
    (sp : StoredPrice) (c : BookCondition) (descr : Option String)
    (seller_id : Nat) : Option Book :=
  match stripToNull (some title), quantize_price sp with
  | some t, some cents =>
    some
      { id := id, created_at := now, title := t
        author := stripToNull author, priceCents := cents
        condition := c, description := stripToNull descr
        is_sold := false, seller_id := seller_id }
  | _, _ => none

/-- `finish_post_flow` (the `ConfirmCallback` handler): `cancel` clears
the session; any other action reads the collected data, upserts the
seller and persists the new book in one transaction.  A missing price
reports "Invalid price data."; a missing title/condition key or a
validation error raises, rolling the whole transaction back. -/
def finish_post_flow (st : BotState) (tg : TgUser) (action : String)
    (now : Nat) : HandlerOut :=
  if action = "cancel" then ⟨⟨st.db, {}⟩, [.listingCancelled], 0, false, false⟩
  else
    match st.session.data.price with
    | none => ⟨st, [.invalidPriceData], 0, false, false⟩
    | some sp =>
      match st.session.data.title, st.session.data.condition with
      | some title, some c =>
        let (db1, seller) := ensure_user st.db tg
        match mkBook db1.nextBookId now title
            (st.session.data.author.getD none) sp c
            (st.session.data.description.getD none) seller.id with
        | none => ⟨st, [], 0, false, true⟩
        | some book =>
          ⟨⟨{ db1 with
                books := db1.books ++ [book]
                nextBookId := db1.nextBookId + 1 }, {}⟩,
           [.bookListed book.id, .menuAfterPost], 0, false, false⟩
      | _, _ => ⟨st, [], 0, false, true⟩

/-- `render_browse_page`: page the unsold catalog with
`per_page = settings.PAGE_SIZE` (default 10) and describe the page. -/
def render_browse_page (db : DB) (page : Nat) : Reply :=
  let (_, total, total_pages) := paginate_books db page 10
  if total = 0 then .noBooksAvailable else .browsePageShown page total_pages

/-- `browse_books` (the `/browse` command). -/
def browse_books (st : BotState) : HandlerOut :=
  ⟨st, [render_browse_page st.db 1], 0, true, false⟩

/-- `paginate_browse` (`BrowseCallback` with `action == "page"`):
`page = max(1, callback_data.page)`. -/
def paginate_browse (st : BotState) (page : Int) : HandlerOut :=
  ⟨st, [render_browse_page st.db (max 1 page).toNat], 0, true, false⟩

/-- `start_search` (the `/search` command): clear, enter the query stage. -/
def start_search (st : BotState) : HandlerOut :=
  ⟨⟨st.db, { stage := some .searchQuery }⟩, [.searchPrompt], 0, false, false⟩

/-- `my_listings` (the `/mybooks` command). -/
def my_listings (st : BotState) (tg : TgUser) : HandlerOut :=
  let (db1, user) := ensure_user st.db tg
  let books := get_user_books db1 user.id
  if books.isEmpty then ⟨⟨db1, st.session⟩, [.noActiveListings], 0, true, false⟩
  else ⟨⟨db1, st.session⟩, [.myListingsShown (books.map Book.id)], 0, true, false⟩

/-- `handle_main_menu` (`MainMenuCallback`): dispatch on the menu action;
an unknown action only acknowledges the callback. -/
def handle_main_menu (st : BotState) (tg : TgUser) (action : String) :
    HandlerOut :=
  if action = "post" then
    let (db1, _) := ensure_user st.db tg
    ⟨⟨db1, { stage := some .title }⟩, [.askTitle], 0, false, false⟩
  else if action = "browse" then
    ⟨st, [render_browse_page st.db 1], 0, true, false⟩
  else if action = "search" then
    ⟨⟨st.db, { stage := some .searchQuery }⟩, [.searchPrompt], 0, false, false⟩
  else if action = "mybooks" then
    let (db1, user) := ensure_user st.db tg
    let books := get_user_books db1 user.id
    if books.isEmpty then ⟨⟨db1, st.session⟩, [.noActiveListings], 0, true, false⟩
    else ⟨⟨db1, st.session⟩, [.myListingsShown (books.map Book.id)], 0, true, false⟩
  else ⟨st, [], 0, false, false⟩

/-- Shared body of `contact_seller` and `contact_seller_from_search`:
a falsy `book_id` aborts; otherwise the book is fetched and the buyer
upserted in one transaction; a missing or sold listing reports
unavailability; otherwise the buyer gets the seller contact, one
notification delivery is attempted (unreachable-seller failures
swallowed), and the buyer is told the contact was sent. -/
def contact_seller (st : BotState) (tg : TgUser) (book_id : Option Int)
    (d : Delivery) : HandlerOut :=
  match book_id with
  | none => ⟨st, [.missingBookInfo], 0, false, false⟩
  | some bid =>
    if bid = 0 then ⟨st, [.missingBookInfo], 0, false, false⟩
    else
      let (db1, _) := ensure_user st.db tg
      match get_book_by_id db1 bid with
      | none => ⟨⟨db1, st.session⟩, [.noLongerAvailable], 0, true, false⟩
      | some book =>
        if book.is_sold then
          ⟨⟨db1, st.session⟩, [.noLongerAvailable], 0, true, false⟩
        else
          let contact :=
            match db1.users.find? (fun u => u.id = book.seller_id) with
            | some seller => seller.public_display
            | none => "Unavailable"
          match notify_seller_of_interest d with
          | (some _, n) =>
            ⟨⟨db1, st.session⟩,
             [.sellerContactFor book.title contact, .contactSent], n, true, false⟩
          | (none, n) =>
            ⟨⟨db1, st.session⟩,
             [.sellerContactFor book.title contact], n, true, true⟩

/-- `contact_seller_from_search` (`SearchCallback` with
`action == "contact"`): line-for-line the same logic as
`contact_seller`, differing only in HTML formatting. -/
def contact_seller_from_search (st : BotState) (tg : TgUser)
    (book_id : Option Int) (d : Delivery) : HandlerOut :=
  contact_seller st tg book_id d

/-- `handle_search_query` (message in the query stage): a blank query
re-prompts; otherwise the session is cleared, the query is stashed in the
data bag under `search_query`, and page 1 of the results is shown. -/
def handle_search_query (st : BotState) (text : String) : HandlerOut :=
  let q := trimStr text
  if q = "" then ⟨st, [.enterSearchTerm], 0, false, false⟩
  else
    let sess : Session := { stage := none, data := { search_query := some q } }
    let (items, _total, total_pages) := search_books st.db q 1 10
    if items.isEmpty then
      ⟨⟨st.db, sess⟩, [.noResultsFor q], 0, true, false⟩
    else
      ⟨⟨st.db, sess⟩, [.searchResultsShown q 1 total_pages], 0, true, false⟩

/-- `render_search_page`. -/
def render_search_page (db : DB) (q : String) (page : Nat) : Reply :=
  let (_, total, total_pages) := search_books db q page 10
  if total = 0 then .noResultsFor q else .searchResultsShown q page total_pages

/-- `paginate_search_results` (`SearchCallback` with `action == "page"`):
the query is re-read from the session data (`data.get("search_query",
"")`); when absent the handler reports "Search query not found" and
returns before any catalog query. -/
def paginate_search_results (st : BotState) (page : Int) : HandlerOut :=
  let search_query := st.session.data.search_query.getD ""
  if search_query = "" then ⟨st, [.searchQueryNotFound], 0, false, false⟩
  else
    ⟨st, [render_search_page st.db search_query (max 1 page).toNat],
     0, true, false⟩

/-- `mark_book_sold` (`ManageBookCallback` with `action == "mark_sold"`):
upsert the acting user, fetch the book; a missing book or a non-owner is
denied; an already-sold book reports "Already marked as sold." without
touching it; otherwise the flag is flipped and persisted. -/
def mark_book_sold (st : BotState) (tg : TgUser) (book_id : Int) :
    HandlerOut :=
  let (db1, seller) := ensure_user st.db tg
  match get_book_by_id db1 book_id with
  | none => ⟨⟨db1, st.session⟩, [.cannotModify], 0, true, false⟩
  | some book =>
    if book.seller_id ≠ seller.id then
      ⟨⟨db1, st.session⟩, [.cannotModify], 0, true, false⟩
    else if book.is_sold then
      ⟨⟨db1, st.session⟩, [.alreadySold], 0, true, false⟩
    else
      ⟨⟨{ db1 with
            books := db1.books.map
              (fun b => if b.id = book.id then b.mark_sold else b) },
        st.session⟩,
       [.markedSold, .markedSoldEdit], 0, true, false⟩

/-! ### Callback action codec

The five `CallbackData` schemas in `app/bot/keyboards.py` fix the token
shapes: a prefix tag plus the declared fields in order, `:`-separated,
with `None` encoded as the empty field. -/

/-- A decoded callback action: one constructor per `CallbackData` class,
with exactly the fields each class declares (note: no query field
anywhere). -/
inductive CallbackAction
  | confirmAct (action : String)
  | browseAct (action : String) (page : Int) (book_id : Option Int)
  | manageAct (action : String) (book_id : Int)
  | menuAct (action : String)
  | searchAct (action : String) (page : Int) (book_id : Option Int)
deriving DecidableEq, Repr

/-- Modelled from the spec: the codec engine (`CallbackData.pack` in the
aiogram framework) is not part of `src/`; §4.3 requires an unambiguous
token of kind tag plus fixed-order fields.  Encoding writes the prefix
followed by every declared field, `:`-separated, `None` as empty. -/
def encodeCallback : CallbackAction → String
  | .confirmAct a => "confirm:" ++ a
  | .browseAct a p b =>
    "browse:" ++ a ++ ":" ++ toString p ++ ":" ++
      (match b with | none => "" | some i => toString i)
  | .manageAct a b => "manage:" ++ a ++ ":" ++ toString b
  | .menuAct a => "menu:" ++ a
  | .searchAct a p b =>
    "search:" ++ a ++ ":" ++ toString p ++ ":" ++
      (match b with | none => "" | some i => toString i)

/-- Parse a (possibly signed) decimal integer field; anything else is a
decode failure. -/
def parseIntField (s : String) : Option Int :=
  match s.toList with
  | '-' :: rest => if rest ≠ [] ∧ allDigits rest then some (-(digitsToNat rest : Int)) else none
  | rest => if rest ≠ [] ∧ allDigits rest then some ((digitsToNat rest : Int)) else none

/-- Parse an `int | None` field: empty means `None`. -/
def parseOptIntField (s : String) : Option (Option Int) :=
  if s = "" then some none
  else (parseIntField s).map some

/-- Modelled from the spec: the decoder half of the codec
(`CallbackData.unpack` and aiogram's filter dispatch are not part of
`src/`).  §4.3: `decode(token) -> action | DecodeError`, failing closed
(`none`) on an unknown prefix, wrong field count or unparsable field. -/
def decodeCallback (token : String) : Option CallbackAction :=
  match (token.toList.splitOn ':').map String.mk with
  | ["confirm", a] => some (.confirmAct a)
  | ["browse", a, p, b] => do
    let page ← parseIntField p
    let bid ← parseOptIntField b
    pure (.browseAct a page bid)
  | ["manage", a, b] => do
    let bid ← parseIntField b
    pure (.manageAct a bid)
  | ["menu", a] => some (.menuAct a)
  | ["search", a, p, b] => do
    let page ← parseIntField p
    let bid ← parseOptIntField b
    pure (.searchAct a page bid)
  | _ => none

/-- `search_results_keyboard` from `app/bot/keyboards.py`, as the list of
callback tokens it attaches: one contact button per result, then
prev/next pagination buttons (only the action kind and the page number —
the `query` argument is never encoded), then the new-search button. -/
def search_results_keyboard (books : List (Int × String)) (page : Int)
    (total_pages : Int) (query : String) : List String :=
  (books.map (fun bk => encodeCallback (.searchAct "contact" page (some bk.1)))) ++
    (if total_pages > 1 then
      (if page > 1 then [encodeCallback (.searchAct "page" (page - 1) none)]
       else []) ++
        (if page < total_pages then
          [encodeCallback (.searchAct "page" (page + 1) none)]
         else [])
     else []) ++
    [encodeCallback (.menuAct "search")]

/-- Dispatch of a decoded callback action to its handler, following the
`router.callback_query` filters in `app/bot/handlers.py`.  Modelled from
the spec for the unmatched cases: aiogram leaves an action kind no filter
accepts unanswered, §4.3/§7 require reporting it as an invalid action
with no mutation. -/
def dispatchCallback (st : BotState) (tg : TgUser) (act : CallbackAction)
    (d : Delivery) (now : Nat) : HandlerOut :=
  match act with
  | .confirmAct a => finish_post_flow st tg a now
  | .menuAct a => handle_main_menu st tg a
  | .browseAct a p b =>
    if a = "page" then paginate_browse st p
    else if a = "contact" then contact_seller st tg b d
    else ⟨st, [.invalidAction], 0, false, false⟩
  | .manageAct a b =>
    if a = "mark_sold" then mark_book_sold st tg b
    else ⟨st, [.invalidAction], 0, false, false⟩
  | .searchAct a p b =>
    if a = "page" then paginate_search_results st p
    else if a = "contact" then contact_seller_from_search st tg b d
    else ⟨st, [.invalidAction], 0, false, false⟩

/-- Handling of one raw callback token.  Modelled from the spec on the
failure path: a token that does not decode is reported as a stale or
invalid action and nothing is mutated. -/
def handle_callback (st : BotState) (tg : TgUser) (token : String)
    (d : Delivery) (now : Nat) : HandlerOut :=
  match decodeCallback token with
  | none => ⟨st, [.invalidAction], 0, false, false⟩
  | some act => dispatchCallback st tg act d now

/-! ### Message dispatch and the global step function -/

/-- Whether a message text invokes `/cmd` (aiogram's `Command` filter:
the command alone or followed by arguments). -/
def isCommand (text cmd : String) : Bool :=
  let t := trimStr text
  t = "/" ++ cmd || t.startsWith ("/" ++ cmd ++ " ")

/-- The casefolded text aliases registered next to each command. -/
def POST_COMMANDS : List String := ["/post", "post a book", "list a book"]

def BROWSE_COMMANDS : List String := ["/browse", "browse", "browse books"]

def SEARCH_COMMANDS : List String := ["/search", "search", "search books"]

def MY_LISTINGS_COMMANDS : List String := ["/mybooks", "my books", "my listings"]

/-- One inbound event from the acting user. -/
inductive Event
  | msg (text : String)
  | callback (token : String)
deriving DecidableEq, Repr

/-- The whole dispatcher: one inbound event against the router's handler
registration order (commands and aliases registered before the post-flow
stage handlers, which precede the browse/search/mybooks commands, with
the search-query stage handler last). -/
def step (st : BotState) (tg : TgUser) (e : Event) (d : Delivery)
    (now : Nat) : HandlerOut :=
  match e with
  | .callback token => handle_callback st tg token d now
  | .msg text =>
    let low := lowerStr (trimStr text)
    if isCommand text "start" then handle_start st tg
    else if isCommand text "help" then handle_help st
    else if isCommand text "cancel" then handle_cancel st
    else if isCommand text "post" || POST_COMMANDS.contains low then
      start_post_flow st tg
    else
      match st.session.stage with
      | some .title => collect_title st text
      | some .author => collect_author st text
      | some .condition => collect_condition st text
      | some .price => collect_price st text
      | some .description => collect_description st text
      | _ =>
        if isCommand text "browse" || BROWSE_COMMANDS.contains low then
          browse_books st
        else if isCommand text "search" || SEARCH_COMMANDS.contains low then
          start_search st
        else if isCommand text "mybooks" || MY_LISTINGS_COMMANDS.contains low then
          my_listings st tg
        else
          match st.session.stage with
          | some .searchQuery => handle_search_query st text
          | _ => ⟨st, [], 0, false, false⟩

/-! ### Read-only web facade (`app/web/app.py`) -/

/-- The query parameters of `GET /books`, after integer parsing:
`page` and `per_page` as the parsed integers (`per_page` defaulting to
`settings.PAGE_SIZE = 10`), the string filters as supplied. -/
structure BooksParams where
  page : Int := 1
  per_page : Int := 10
  author : Option String := none
  title : Option String := none
  condition : Option String := none
deriving DecidableEq, Repr

/-- The response of `GET /books`: the serialized page or the 400
client-error response ("Invalid condition parameter."). -/
inductive BooksResponse
  | ok (items : List Book) (page : Nat) (per_page : Nat) (total : Nat)
  | badRequest
deriving DecidableEq, Repr

/-- The filters of `list_books` other than `condition`: unsold, plus the
optional `ilike` author/title containment (a falsy — empty — parameter is
skipped by the walrus test; `ilike` is case-insensitive, embedded by
lowercasing both sides). -/
def webBaseFilter (p : BooksParams) (b : Book) : Bool :=
  !b.is_sold &&
    (match p.author with
     | some a => if a = "" then true else optLike (searchTerm a) b.author
     | none => true) &&
    (match p.title with
     | some t => if t = "" then true
                 else likeMatch (searchTerm t) (lowerStr b.title).toList
     | none => true)

/-- The terminal query of `list_books`: clamp `page`/`per_page`, filter,
order, slice, count. -/
def webRun (db : DB) (p : BooksParams) (f : Book → Bool) : BooksResponse :=
  let page := (max 1 p.page).toNat
  let per_page := (max 1 (min p.per_page 100)).toNat
  let rows := db.books.filter f
  .ok (pageSlice (sortLaterFirst rows) page per_page) page per_page
    rows.length

/-- `list_books` from `app/web/app.py`: an empty `condition` parameter is
skipped (falsy), an undecodable non-empty one returns 400 before any
storage access, a valid one adds an exact condition filter. -/
def list_books_web (db : DB) (p : BooksParams) : BooksResponse :=
  match p.condition with
  | some c =>
    if c = "" then webRun db p (webBaseFilter p)
    else
      match BookCondition.fromValue c with
      | none => .badRequest
      | some ce => webRun db p (fun b => webBaseFilter p b && b.condition = ce)
  | none => webRun db p (webBaseFilter p)

/-- Control flow of `list_books`: the 400 is produced before
`session_scope` opens, so no storage is read on that path. -/
def web_touches_storage (p : BooksParams) : Bool :=
  match p.condition with
  | some c => c = "" || (BookCondition.fromValue c).isSome
  | none => true

/-! ### Spec-side vocabulary

Definitions below express the spec's wording (substring matching,
half-up rounding, sold-flag monotonicity) so the theorems can compare
the embedded code against it. -/

/-- `q` is a prefix of `s` (one literal character at a time). -/
def segPre : List Char → List Char → Bool
  | [], _ => true
  | _ :: _, [] => false
  | a :: q, b :: s => a == b && segPre q s

/-- `q` occurs as a contiguous substring of `s` — the spec's
"the lowercased query is a substring of the field". -/
def occursIn (q : List Char) : List Char → Bool
  | [] => segPre q []
  | c :: s' => segPre q (c :: s') || occursIn q s'

/-- The spec's substring-based match over the three fields,
case-insensitively, of a (trimmed) query. -/
def substringMatch (query : String) (b : Book) : Bool :=
  let q := (lowerStr (trimStr query)).toList
  occursIn q (lowerStr b.title).toList ||
    (match b.author with
     | none => false
     | some a => occursIn q (lowerStr a).toList) ||
    (match b.description with
     | none => false
     | some de => occursIn q (lowerStr de).toList)

/-- A query with no SQL `LIKE` wildcard characters. -/
def wildcardFree (query : String) : Prop :=
  '%' ∉ query.toList ∧ '_' ∉ query.toList

/-- The spec's "rounded half-up to 2 decimal places" on a non-negative
rational: scale to cents, add a half, floor, scale back. -/
def roundHalfUp2 (q : ℚ) : ℚ :=
  ((⌊q * 100 + 1 / 2⌋ : ℚ)) / 100

/-- The rational value denoted by a finite decimal numeral `(m, k)`. -/
def decValue (m : Int) (k : Nat) : ℚ :=
  (m : ℚ) / 10 ^ k

/-- Sold-flag lookup by listing id. -/
def soldOf (db : DB) (bid : Int) : Option Bool :=
  (get_book_by_id db bid).map Book.is_sold

/-- `is_sold` monotonicity between two database states: every listing
already sold in the first is still present and sold in the second. -/
def BooksMono (db db' : DB) : Prop :=
  ∀ bid, soldOf db bid = some true → soldOf db' bid = some true

/-! ### Concrete fixtures for the worked examples -/

/-- An unsold catalog book with the given id/timestamp/title. -/
def mkCatBook (id created_at : Nat) (title : String) : Book :=
  { id := id, created_at := created_at, title := title, author := none
    priceCents := 100, condition := .good, description := none
    is_sold := false, seller_id := 1 }

/-- A seller row for the fixtures. -/
def fixtureSeller : User :=
  { id := 1, telegram_id := 100, username := some "alice"
    display_name := some "Alice", created_at := 0 }

/-- The empty database. -/
def emptyDB : DB :=
  { users := [], books := [], nextUserId := 1, nextBookId := 1 }

/-- 23 unsold listings (ids 1–23) plus two sold ones, as in the spec's
pagination example (`total=23, perPage=10`). -/
def exampleDB23 : DB :=
  { users := [fixtureSeller]
    books :=
      ((List.range 23).map (fun i => mkCatBook (i + 1) (i + 1) "B")) ++
        [{ mkCatBook 24 24 "S1" with is_sold := true },
         { mkCatBook 25 25 "S2" with is_sold := true }]
    nextUserId := 2
    nextBookId := 26 }

/-- Two unsold listings sharing one `created_at` timestamp: the SQL
ordering contract does not decide which comes first. -/
def tieRows : List Book :=
  [mkCatBook 1 5 "A", mkCatBook 2 5 "B"]

/-- The same two rows in the other admissible order. -/
def tieRowsSwapped : List Book :=
  [mkCatBook 2 5 "B", mkCatBook 1 5 "A"]

/-- A catalog holding one unsold listing titled "Calculus, 8th Edition"
and one unsold listing titled "abc" (wildcard-free fields). -/
def searchFixtureDB : DB :=
  { users := [fixtureSeller]
    books := [mkCatBook 1 1 "Calculus, 8th Edition", mkCatBook 2 2 "abc"]
    nextUserId := 2
    nextBookId := 3 }

/-- A database with one seller owning one unsold listing, and no other
users. -/
def c3DB : DB :=
  { users := [fixtureSeller]
    books := [mkCatBook 1 1 "Owned"]
    nextUserId := 2
    nextBookId := 2 }

/-- A stranger (not in the users table) acting on the fixture listing. -/
def strangerTg : TgUser :=
  { telegram_id := 200, username := none, full_name := some "Bob"
    first_name := none }

/-- The fixture seller as the inbound Telegram identity. -/
def sellerTg : TgUser :=
  { telegram_id := 100, username := some "alice", full_name := some "Alice"
    first_name := none }

/-- The fixture bot state: the one-listing database, no active flow. -/
def c3Start : BotState :=
  ⟨c3DB, {}⟩

/-- A session halfway through the post flow, waiting for the price. -/
def priceStageState : BotState :=
  ⟨c3DB,
   { stage := some .price,
     data := { title := some "Calculus", author := some none,
               condition := some .good } }⟩

/-- The fixture listing. -/
def ownedBook : Book :=
  mkCatBook 1 1 "Owned"

/-! ## Theorems -/

theorem ensure_user_books (db : DB) (tg : TgUser) :
    (ensure_user db tg).1.books = db.books := by
  unfold ensure_user
  cases db.users.find? (fun u => u.telegram_id = tg.telegram_id) <;> rfl

theorem booksMono_of_eq {db db' : DB} (h : db'.books = db.books) :
    BooksMono db db' := by
  intro bid hs
  unfold soldOf get_book_by_id at hs ⊢
  rw [h]
  exact hs

theorem booksMono_append {db db' : DB} {b : Book}
    (h : db'.books = db.books ++ [b]) : BooksMono db db' := by
  intro bid hs
  unfold soldOf get_book_by_id at hs ⊢
  rw [h, List.find?_append]
  rcases hf : db.books.find? (fun x => (x.id : Int) = bid) with _ | bk
  · rw [hf] at hs
    exact absurd hs (by simp)
  · rw [hf] at hs
    rw [hf, Option.or_some]
    exact hs

theorem find?_markmap (l : List Book) (i : Nat) (bid : Int) :
    (l.map (fun b => if b.id = i then b.mark_sold else b)).find?
        (fun b => (b.id : Int) = bid) =
      (l.find? (fun b => (b.id : Int) = bid)).map
        (fun b => if b.id = i then b.mark_sold else b) := by
  induction l with
  | nil => rfl
  | cons a l ih =>
    have hid : (if a.id = i then a.mark_sold else a).id = a.id := by
      split <;> rfl
    by_cases hab : ((a.id : Int) = bid)
    · simp [List.find?_cons, hid, hab]
    · simp [List.find?_cons, hid, hab, ih]

theorem booksMono_mark {db db' : DB} {i : Nat}
    (h : db'.books =
      db.books.map (fun b => if b.id = i then b.mark_sold else b)) :
    BooksMono db db' := by
  intro bid hs
  unfold soldOf get_book_by_id at hs ⊢
  rw [h, find?_markmap]
  rcases hf : db.books.find? (fun x => (x.id : Int) = bid) with _ | bk
  · rw [hf] at hs
    exact absurd hs (by simp)
  · rw [hf] at hs
    rw [hf]
    have hbk : bk.is_sold = true := by
      simpa using hs
    have hg : (if bk.id = i then bk.mark_sold else bk).is_sold = true := by
      split
      · rfl
      · exact hbk
    show some ((if bk.id = i then bk.mark_sold else bk).is_sold) = some true
    rw [hg]

theorem mono_handle_start (st : BotState) (tg : TgUser) :
    BooksMono st.db (handle_start st tg).state.db :=
  booksMono_of_eq (ensure_user_books st.db tg)

theorem mono_handle_help (st : BotState) :
    BooksMono st.db (handle_help st).state.db :=
  booksMono_of_eq rfl

theorem mono_handle_cancel (st : BotState) :
    BooksMono st.db (handle_cancel st).state.db := by
  unfold handle_cancel
  cases st.session.stage <;> exact booksMono_of_eq rfl

theorem mono_start_post_flow (st : BotState) (tg : TgUser) :
    BooksMono st.db (start_post_flow st tg).state.db :=
  booksMono_of_eq (ensure_user_books st.db tg)

theorem mono_collect_title (st : BotState) (text : String) :
    BooksMono st.db (collect_title st text).state.db := by
  unfold collect_title
  dsimp only
  split <;> exact booksMono_of_eq rfl

theorem mono_collect_author (st : BotState) (text : String) :
    BooksMono st.db (collect_author st text).state.db :=
  booksMono_of_eq rfl

theorem mono_collect_condition (st : BotState) (text : String) :
    BooksMono st.db (collect_condition st text).state.db := by
  unfold collect_condition
  dsimp only
  split <;> exact booksMono_of_eq rfl

theorem mono_collect_price (st : BotState) (text : String) :
    BooksMono st.db (collect_price st text).state.db := by
  unfold collect_price
  split <;> exact booksMono_of_eq rfl

theorem mono_collect_description (st : BotState) (text : String) :
    BooksMono st.db (collect_description st text).state.db :=
  booksMono_of_eq rfl

theorem mono_finish_post_flow (st : BotState) (tg : TgUser) (a : String)
    (now : Nat) : BooksMono st.db (finish_post_flow st tg a now).state.db := by
  unfold finish_post_flow
  split
  · exact booksMono_of_eq rfl
  · rcases hp : st.session.data.price with _ | sp
    · exact booksMono_of_eq rfl
    · rcases he : ensure_user st.db tg with ⟨db1, u⟩
      have hb : db1.books = st.db.books := by
        rw [← ensure_user_books st.db tg, he]
      dsimp only
      split
      · split
        · exact booksMono_of_eq rfl
        · rename_i book heq
          apply booksMono_append (b := book)
          show db1.books ++ [book] = st.db.books ++ [book]
          rw [hb]
      all_goals exact booksMono_of_eq rfl

theorem mono_browse_books (st : BotState) :
    BooksMono st.db (browse_books st).state.db :=
  booksMono_of_eq rfl

theorem mono_paginate_browse (st : BotState) (p : Int) :
    BooksMono st.db (paginate_browse st p).state.db :=
  booksMono_of_eq rfl

theorem mono_start_search (st : BotState) :
    BooksMono st.db (start_search st).state.db :=
  booksMono_of_eq rfl

theorem mono_my_listings (st : BotState) (tg : TgUser) :
    BooksMono st.db (my_listings st tg).state.db := by
  unfold my_listings
  rcases he : ensure_user st.db tg with ⟨db1, u⟩
  have hb : db1.books = st.db.books := by
    rw [← ensure_user_books st.db tg, he]
  dsimp only
  split <;> exact booksMono_of_eq hb

theorem mono_handle_main_menu (st : BotState) (tg : TgUser) (a : String) :
    BooksMono st.db (handle_main_menu st tg a).state.db := by
  unfold handle_main_menu
  rcases he : ensure_user st.db tg with ⟨db1, u⟩
  have hb : db1.books = st.db.books := by
    rw [← ensure_user_books st.db tg, he]
  dsimp only
  repeat' split
  all_goals first
    | exact booksMono_of_eq rfl
    | exact booksMono_of_eq hb

theorem mono_contact_seller (st : BotState) (tg : TgUser)
    (b : Option Int) (d : Delivery) :
    BooksMono st.db (contact_seller st tg b d).state.db := by
  unfold contact_seller
  rcases b with _ | bid
  · exact booksMono_of_eq rfl
  · rcases he : ensure_user st.db tg with ⟨db1, u⟩
    have hb : db1.books = st.db.books := by
      rw [← ensure_user_books st.db tg, he]
    dsimp only
    repeat' split
    all_goals first
      | exact booksMono_of_eq rfl
      | exact booksMono_of_eq hb

theorem mono_contact_seller_from_search (st : BotState) (tg : TgUser)
    (b : Option Int) (d : Delivery) :
    BooksMono st.db (contact_seller_from_search st tg b d).state.db :=
  mono_contact_seller st tg b d

theorem mono_handle_search_query (st : BotState) (text : String) :
    BooksMono st.db (handle_search_query st text).state.db := by
  unfold handle_search_query
  dsimp only
  repeat' split
  all_goals exact booksMono_of_eq rfl

theorem mono_paginate_search_results (st : BotState) (p : Int) :
    BooksMono st.db (paginate_search_results st p).state.db := by
  unfold paginate_search_results
  dsimp only
  split <;> exact booksMono_of_eq rfl

theorem mono_mark_book_sold (st : BotState) (tg : TgUser) (bid : Int) :
    BooksMono st.db (mark_book_sold st tg bid).state.db := by
  unfold mark_book_sold
  rcases he : ensure_user st.db tg with ⟨db1, seller⟩
  have hb : db1.books = st.db.books := by
    rw [← ensure_user_books st.db tg, he]
  dsimp only
  split
  · exact booksMono_of_eq hb
  · split
    · exact booksMono_of_eq hb
    · split
      · exact booksMono_of_eq hb
      · apply booksMono_mark
        show db1.books.map _ = st.db.books.map _
        rw [hb]

theorem mono_handle_callback (st : BotState) (tg : TgUser) (token : String)
    (d : Delivery) (now : Nat) :
    BooksMono st.db (handle_callback st tg token d now).state.db := by
  unfold handle_callback
  rcases decodeCallback token with _ | act
  · exact booksMono_of_eq rfl
  · dsimp only
    unfold dispatchCallback
    rcases act with a | ⟨a, p, b⟩ | ⟨a, b⟩ | a | ⟨a, p, b⟩ <;> dsimp only
    · exact mono_finish_post_flow st tg a now
    · split
      · exact mono_paginate_browse st p
      · split
        · exact mono_contact_seller st tg b d
        · exact booksMono_of_eq rfl
    · split
      · exact mono_mark_book_sold st tg b
      · exact booksMono_of_eq rfl
    · exact mono_handle_main_menu st tg a
    · split
      · exact mono_paginate_search_results st p
      · split
        · exact mono_contact_seller_from_search st tg b d
        · exact booksMono_of_eq rfl

set_option maxHeartbeats 1600000 in
theorem mono_step (st : BotState) (tg : TgUser) (e : Event) (d : Delivery)
    (now : Nat) : BooksMono st.db (step st tg e d now).state.db := by
  rcases e with text | token
  · unfold step
    dsimp only
    repeat' split
    all_goals first
      | exact mono_handle_start st tg
      | exact mono_handle_help st
      | exact mono_handle_cancel st
      | exact mono_start_post_flow st tg
      | exact mono_collect_title st text
      | exact mono_collect_author st text
      | exact mono_collect_condition st text
      | exact mono_collect_price st text
      | exact mono_collect_description st text
      | exact mono_browse_books st
      | exact mono_start_search st
      | exact mono_my_listings st tg
      | exact mono_handle_search_query st text
  · exact mono_handle_callback st tg token d now

/-- The three branch equations of `mark_book_sold` on an existing book,
shared by several theorems below. -/
theorem mark_book_sold_eq (st : BotState) (tg : TgUser) (bid : Int)
    (book : Book) (db1 : DB) (seller : User)
    (he : ensure_user st.db tg = (db1, seller))
    (hb : get_book_by_id st.db bid = some book) :
    (book.seller_id ≠ seller.id →
      mark_book_sold st tg bid =
        ⟨⟨db1, st.session⟩, [.cannotModify], 0, true, false⟩) ∧
    (book.seller_id = seller.id → book.is_sold = true →
      mark_book_sold st tg bid =
        ⟨⟨db1, st.session⟩, [.alreadySold], 0, true, false⟩) ∧
    (book.seller_id = seller.id → book.is_sold = false →
      mark_book_sold st tg bid =
        ⟨⟨{ db1 with
              books := db1.books.map
                (fun b => if b.id = book.id then b.mark_sold else b) },
           st.session⟩, [.markedSold, .markedSoldEdit], 0, true, false⟩) := by
  have hbooks : db1.books = st.db.books := by
    rw [← ensure_user_books st.db tg, he]
  have hb1 : get_book_by_id db1 bid = some book := by
    unfold get_book_by_id at hb ⊢
    rw [hbooks]
    exact hb
  refine ⟨?_, ?_, ?_⟩
  · intro hno
    unfold mark_book_sold
    rw [he]
    dsimp only
    rw [hb1]
    dsimp only
    rw [if_pos hno]
  · intro hyes hsold
    unfold mark_book_sold
    rw [he]
    dsimp only
    rw [hb1]
    dsimp only
    rw [if_neg (not_not_intro hyes), if_pos hsold]
  · intro hyes hunsold
    unfold mark_book_sold
    rw [he]
    dsimp only
    rw [hb1]
    dsimp only
    rw [if_neg (not_not_intro hyes), if_neg (by rw [hunsold]; exact Bool.false_ne_true)]

/-- C1: on an existing listing, mark-sold by a non-seller is denied with
"You cannot modify this listing." regardless of sold state (the ownership
test precedes the sold test) and leaves the listings unchanged; by the
seller on an already-sold listing it reports "Already marked as sold."
and changes nothing; by the seller on an unsold listing it sets `is_sold`
and persists it.  Moreover `is_sold` is monotone under every operation of
the bot: a listing sold before any `step` is still sold after it. -/
theorem mark_sold_ownership_idempotence_monotone
    (st : BotState) (tg : TgUser) (bid : Int) (book : Book)
    (hb : get_book_by_id st.db bid = some book) :
    (book.seller_id ≠ (ensure_user st.db tg).2.id →
      (mark_book_sold st tg bid).replies = [Reply.cannotModify] ∧
      (mark_book_sold st tg bid).state.db.books = st.db.books) ∧
    (book.seller_id = (ensure_user st.db tg).2.id → book.is_sold = true →
      (mark_book_sold st tg bid).replies = [Reply.alreadySold] ∧
      (mark_book_sold st tg bid).state.db.books = st.db.books) ∧
    (book.seller_id = (ensure_user st.db tg).2.id → book.is_sold = false →
      (mark_book_sold st tg bid).replies =
          [Reply.markedSold, Reply.markedSoldEdit] ∧
      get_book_by_id (mark_book_sold st tg bid).state.db bid =
        some book.mark_sold) ∧
    (∀ (st' : BotState) (tg' : TgUser) (e : Event) (d : Delivery) (now : Nat),
      BooksMono st'.db (step st' tg' e d now).state.db) := by
  rcases he : ensure_user st.db tg with ⟨db1, seller⟩
  have hbooks : db1.books = st.db.books := by
    rw [← ensure_user_books st.db tg, he]
  obtain ⟨h1, h2, h3⟩ := mark_book_sold_eq st tg bid book db1 seller he hb
  refine ⟨?_, ?_, ?_, fun st' tg' e d now => mono_step st' tg' e d now⟩
  · intro hno
    rw [h1 hno]
    exact ⟨rfl, hbooks⟩
  · intro hyes hsold
    rw [h2 hyes hsold]
    exact ⟨rfl, hbooks⟩
  · intro hyes hunsold
    rw [h3 hyes hunsold]
    refine ⟨rfl, ?_⟩
    show (db1.books.map fun b => if b.id = book.id then b.mark_sold else b).find?
        (fun b => (b.id : Int) = bid) = some book.mark_sold
    rw [find?_markmap]
    have : db1.books.find? (fun b => (b.id : Int) = bid) = some book := by
      unfold get_book_by_id at hb
      rw [hbooks]
      exact hb
    rw [this]
    show some (if book.id = book.id then book.mark_sold else book) =
      some book.mark_sold
    rw [if_pos rfl]

/-- Witness for the mark-sold theorem at the concrete fixture: the seller
marks the one unsold listing, which flips its flag. -/
theorem mark_sold_ownership_idempotence_monotone_witness :
    (mark_book_sold c3Start sellerTg 1).replies =
        [Reply.markedSold, Reply.markedSoldEdit] ∧
    get_book_by_id (mark_book_sold c3Start sellerTg 1).state.db 1 =
      some ownedBook.mark_sold :=
  (mark_sold_ownership_idempotence_monotone c3Start sellerTg 1 ownedBook
      (by decide)).2.2.1 (by decide) (by decide)

/-- C3 counterexample: a rejected mark-sold by a stranger still changes
the Users table — the acting user is upserted before the ownership check,
and the transaction commits on the denial path (no exception is raised),
so the claim that no persisted table changes is false. -/
theorem mark_sold_reject_mutates_users :
    (mark_book_sold c3Start strangerTg 1).replies = [Reply.cannotModify] ∧
    (mark_book_sold c3Start strangerTg 1).state.db.users ≠ c3Start.db.users := by
  decide

/-- C3 (amended): a mark-sold request by a non-seller on an existing
listing is rejected with "You cannot modify this listing." and mutates no
listing: the Listings table and the session are unchanged, and the
database equals exactly the result of the acting user's upsert (the only
Users-table change). -/
theorem mark_sold_reject_books_untouched
    (st : BotState) (tg : TgUser) (bid : Int) (book : Book)
    (hb : get_book_by_id st.db bid = some book)
    (hno : book.seller_id ≠ (ensure_user st.db tg).2.id) :
    (mark_book_sold st tg bid).state.db = (ensure_user st.db tg).1 ∧
    (mark_book_sold st tg bid).state.db.books = st.db.books ∧
    (mark_book_sold st tg bid).state.session = st.session ∧
    (mark_book_sold st tg bid).replies = [Reply.cannotModify] := by
  rcases he : ensure_user st.db tg with ⟨db1, seller⟩
  have hbooks : db1.books = st.db.books := by
    rw [← ensure_user_books st.db tg, he]
  obtain ⟨h1, _, _⟩ := mark_book_sold_eq st tg bid book db1 seller he hb
  have hno' : book.seller_id ≠ seller.id := by
    rw [he] at hno
    exact hno
  rw [h1 hno']
  exact ⟨rfl, hbooks, rfl, rfl⟩

/-- Witness: the stranger's rejected request leaves the listing table of
the fixture untouched. -/
theorem mark_sold_reject_books_untouched_witness :
    (mark_book_sold c3Start strangerTg 1).state.db.books = c3Start.db.books ∧
    (mark_book_sold c3Start strangerTg 1).replies = [Reply.cannotModify] :=
  let h := mark_sold_reject_books_untouched c3Start strangerTg 1 ownedBook
    (by decide) (by decide)
  ⟨h.2.1, h.2.2.2⟩

/-- C7: a contact-seller action on an existing unsold listing attempts
exactly one delivery to the seller whatever the transport outcome; when
the seller is unreachable (blocked the bot or account gone) the failure
is swallowed — the handler's entire observable outcome, including the
"Contact sent!" confirmation to the buyer, is identical to a successful
delivery, nothing is retried and no failure propagates. -/
theorem contact_seller_swallows_unreachable
    (st : BotState) (tg : TgUser) (bid : Int) (book : Book)
    (hbid : bid ≠ 0)
    (hb : get_book_by_id st.db bid = some book)
    (hunsold : book.is_sold = false) :
    (∀ d : Delivery, (contact_seller st tg (some bid) d).attempts = 1) ∧
    contact_seller st tg (some bid) .forbidden =
      contact_seller st tg (some bid) .ok ∧
    contact_seller st tg (some bid) .notFound =
      contact_seller st tg (some bid) .ok ∧
    Reply.contactSent ∈ (contact_seller st tg (some bid) .forbidden).replies ∧
    (contact_seller st tg (some bid) .forbidden).raised = false := by
  rcases he : ensure_user st.db tg with ⟨db1, buyer⟩
  have hbooks : db1.books = st.db.books := by
    rw [← ensure_user_books st.db tg, he]
  have hb1 : get_book_by_id db1 bid = some book := by
    unfold get_book_by_id at hb ⊢
    rw [hbooks]
    exact hb
  have hstep : ∀ d : Delivery,
      contact_seller st tg (some bid) d =
        match notify_seller_of_interest d with
        | (some _, n) =>
          ⟨⟨db1, st.session⟩,
           [.sellerContactFor book.title
              (match db1.users.find? (fun u => u.id = book.seller_id) with
               | some seller => seller.public_display
               | none => "Unavailable"), .contactSent], n, true, false⟩
        | (none, n) =>
          ⟨⟨db1, st.session⟩,
           [.sellerContactFor book.title
              (match db1.users.find? (fun u => u.id = book.seller_id) with
               | some seller => seller.public_display
               | none => "Unavailable")], n, true, true⟩ := by
    intro d
    unfold contact_seller
    rw [he]
    dsimp only
    rw [if_neg hbid, hb1]
    dsimp only
    rw [if_neg (by rw [hunsold]; exact Bool.false_ne_true)]
  refine ⟨?_, ?_, ?_, ?_, ?_⟩
  · intro d
    cases d <;> rw [hstep] <;> rfl
  · rw [hstep, hstep]
    rfl
  · rw [hstep, hstep]
    rfl
  · rw [hstep]
    exact List.mem_cons_of_mem _ (List.mem_cons_self _ _)
  · rw [hstep]
    rfl

/-- Witness for the contact-seller theorem: the stranger contacts the
fixture seller about the one unsold listing while the seller has blocked
the bot. -/
theorem contact_seller_swallows_unreachable_witness :
    (contact_seller c3Start strangerTg (some 1) .forbidden).attempts = 1 ∧
    Reply.contactSent ∈
      (contact_seller c3Start strangerTg (some 1) .forbidden).replies :=
  let h := contact_seller_swallows_unreachable c3Start strangerTg 1 ownedBook
    (by decide) (by decide) (by decide)
  ⟨h.1 .forbidden, h.2.2.2.1⟩

/-- C10: the search-results pagination callback carries only the action
kind and page (the keyboard is independent of the query and the decoded
token holds no query field); `handle_search_query` stashes the query in
the cleared session; and when the stashed query is missing the paginate
handler reports "Search query not found", runs no catalog query and
mutates nothing. -/
theorem search_pagination_token_query_free :
    (∀ (books : List (Int × String)) (page tp : Int) (q q' : String),
      search_results_keyboard books page tp q =
        search_results_keyboard books page tp q') ∧
    decodeCallback (encodeCallback (.searchAct "page" 3 none)) =
      some (.searchAct "page" 3 none) ∧
    (∀ (st : BotState) (text : String), trimStr text ≠ "" →
      (handle_search_query st text).state.session =
        ⟨none, { search_query := some (trimStr text) }⟩) ∧
    (∀ (st : BotState) (page : Int),
      st.session.data.search_query.getD "" = "" →
      paginate_search_results st page =
        ⟨st, [.searchQueryNotFound], 0, false, false⟩) := by
  refine ⟨fun _ _ _ _ _ => rfl, by decide, ?_, ?_⟩
  · intro st text h
    unfold handle_search_query
    dsimp only
    rw [if_neg h]
    rcases hs : search_books st.db (trimStr text) 1 10 with ⟨items, tot, tp⟩
    dsimp only
    split <;> rfl
  · intro st page h
    unfold paginate_search_results
    dsimp only
    rw [if_pos h]

/-- Witness: paginating with an empty session reports the missing query
and leaves everything unchanged; a fresh search stashes its query. -/
theorem search_pagination_token_query_free_witness :
    paginate_search_results c3Start 2 =
      ⟨c3Start, [.searchQueryNotFound], 0, false, false⟩ ∧
    (handle_search_query c3Start "calc").state.session =
      ⟨none, { search_query := some "calc" }⟩ :=
  ⟨search_pagination_token_query_free.2.2.2 c3Start 2 (by decide),
   search_pagination_token_query_free.2.2.1 c3Start "calc" (by decide)⟩

/-- C6: a callback token that fails to decode (malformed or unknown kind)
is handled totally — no exception escapes (`raised = false`), the user is
told the action is invalid, and neither the session nor the database
changes. -/
theorem callback_decode_failure_safe
    (st : BotState) (tg : TgUser) (token : String) (d : Delivery) (now : Nat)
    (h : decodeCallback token = none) :
    handle_callback st tg token d now =
      ⟨st, [.invalidAction], 0, false, false⟩ := by
  unfold handle_callback
  rw [h]

/-- Witness: a token with an unknown kind tag is rejected harmlessly. -/
theorem callback_decode_failure_safe_witness :
    handle_callback c3Start strangerTg "bogus:kind:token" .ok 0 =
      ⟨c3Start, [.invalidAction], 0, false, false⟩ :=
  callback_decode_failure_safe c3Start strangerTg "bogus:kind:token" .ok 0
    (by decide)

/-- Field equations of a successful `webRun`. -/
theorem webRun_ok_fields (db : DB) (p : BooksParams) (f : Book → Bool)
    {items : List Book} {pg pp tot : Nat}
    (h : webRun db p f = .ok items pg pp tot) :
    items = pageSlice (sortLaterFirst (db.books.filter f))
        (max 1 p.page).toNat (max 1 (min p.per_page 100)).toNat ∧
    pg = (max 1 p.page).toNat ∧
    pp = (max 1 (min p.per_page 100)).toNat ∧
    tot = (db.books.filter f).length := by
  unfold webRun at h
  dsimp only at h
  injection h with h1 h2 h3 h4
  exact ⟨h1.symm, h2.symm, h3.symm, h4.symm⟩

/-- C8 counterexample: a supplied but empty `condition` parameter does
not decode to any enum value, yet the call succeeds (the walrus test
skips a falsy parameter) instead of failing with 400. -/
theorem web_empty_condition_accepted :
    list_books_web emptyDB { condition := some "" } = .ok [] 1 10 0 ∧
    BookCondition.fromValue "" = none := by
  decide

/-- C8 (amended): a supplied **non-empty** `condition` that does not
decode to an enum value fails with 400 before touching storage (an empty
parameter is treated as absent); every successful response clamps
`per_page` into `[1,100]` and returns at most that many items; a valid
condition restricts the result to exactly that condition. -/
theorem web_per_page_clamped_and_condition_filter (db : DB)
    (p : BooksParams) :
    (∀ c, p.condition = some c → c ≠ "" → BookCondition.fromValue c = none →
      list_books_web db p = .badRequest ∧ web_touches_storage p = false) ∧
    (∀ items pg pp tot, list_books_web db p = .ok items pg pp tot →
      (pp : Int) = max 1 (min p.per_page 100) ∧ 1 ≤ pp ∧ pp ≤ 100 ∧
      pg = (max 1 p.page).toNat ∧ items.length ≤ pp) ∧
    (∀ c ce items pg pp tot, p.condition = some c →
      BookCondition.fromValue c = some ce →
      list_books_web db p = .ok items pg pp tot →
      (∀ b ∈ items, b.condition = ce) ∧
      tot = (db.books.filter
        (fun b => webBaseFilter p b && b.condition = ce)).length) := by
  have hfields : ∀ (f : Book → Bool) (items : List Book) (pg pp tot : Nat),
      webRun db p f = .ok items pg pp tot →
      (pp : Int) = max 1 (min p.per_page 100) ∧ 1 ≤ pp ∧ pp ≤ 100 ∧
      pg = (max 1 p.page).toNat ∧ items.length ≤ pp := by
    intro f items pg pp tot h
    obtain ⟨hi, hpg, hpp, _⟩ := webRun_ok_fields db p f h
    subst hi hpg hpp
    refine ⟨by omega, by omega, by omega, rfl, ?_⟩
    unfold pageSlice
    rw [List.length_take]
    exact min_le_left _ _
  refine ⟨?_, ?_, ?_⟩
  · intro c hc hcne hcv
    unfold list_books_web web_touches_storage
    rw [hc]
    dsimp only
    rw [if_neg hcne, hcv]
    refine ⟨rfl, ?_⟩
    simp [hcne]
  · intro items pg pp tot h
    unfold list_books_web at h
    rcases hc : p.condition with _ | c
    · rw [hc] at h
      exact hfields _ items pg pp tot h
    · rw [hc] at h
      dsimp only at h
      by_cases hce : c = ""
      · rw [if_pos hce] at h
        exact hfields _ items pg pp tot h
      · rw [if_neg hce] at h
        rcases hv : BookCondition.fromValue c with _ | ce
        · rw [hv] at h
          exact absurd h (by simp)
        · rw [hv] at h
          exact hfields _ items pg pp tot h
  · intro c ce items pg pp tot hc hv h
    unfold list_books_web at h
    rw [hc] at h
    dsimp only at h
    have hcne : c ≠ "" := by
      intro hemp
      rw [hemp] at hv
      rw [show BookCondition.fromValue "" = none from rfl] at hv
      cases hv
    rw [if_neg hcne, hv] at h
    obtain ⟨hi, _, _, htot⟩ :=
      webRun_ok_fields db p (fun b => webBaseFilter p b && b.condition = ce) h
    subst hi
    refine ⟨?_, htot⟩
    intro b hbmem
    have hdrop : b ∈ sortLaterFirst
        (db.books.filter (fun b => webBaseFilter p b && b.condition = ce)) :=
      List.drop_subset _ _ (List.take_subset _ _ hbmem)
    have hrow : b ∈ db.books.filter
        (fun b => webBaseFilter p b && b.condition = ce) :=
      (List.perm_insertionSort laterFirst _).mem_iff.mp hdrop
    have hf := (List.mem_filter.mp hrow).2
    rw [Bool.and_eq_true] at hf
    exact of_decide_eq_true hf.2

/-- Witness: `per_page=250` with a valid condition `good` is clamped to
100 on the two-book fixture. -/
theorem web_per_page_clamped_witness :
    (100 : Int) = max 1 (min (250 : Int) 100) ∧ 1 ≤ 100 ∧ 100 ≤ 100 ∧
    1 = (max 1 (1 : Int)).toNat ∧
    [mkCatBook 2 2 "abc", mkCatBook 1 1 "Calculus, 8th Edition"].length ≤ 100 :=
  (web_per_page_clamped_and_condition_filter searchFixtureDB
      { per_page := 250, condition := some "good" }).2.1
    [mkCatBook 2 2 "abc", mkCatBook 1 1 "Calculus, 8th Edition"] 1 100 2
    (by decide)

theorem centsOf_nonneg (m : Int) (k : Nat) (hm : 0 ≤ m) :
    0 ≤ centsOf m k := by
  unfold centsOf
  by_cases hk : k ≤ 2
  · rw [if_pos hk]
    exact mul_nonneg hm (by positivity)
  · rw [if_neg hk]
    dsimp only
    rw [if_pos hm]
    exact Int.ediv_nonneg
      (add_nonneg hm (Int.ediv_nonneg (by positivity) (by norm_num)))
      (by positivity)

theorem centsOf_eq_floor (m : Int) (k : Nat) (hm : 0 ≤ m) :
    centsOf m k = ⌊(m : ℚ) / 10 ^ k * 100 + 1 / 2⌋ := by
  have hhalf : ⌊(1 : ℚ) / 2⌋ = 0 := by
    rw [Int.floor_eq_iff] <;> norm_num
  unfold centsOf
  by_cases hk : k ≤ 2
  · rw [if_pos hk]
    have hsplit : (m : ℚ) / 10 ^ k * 100 = ((m * 10 ^ (2 - k) : Int) : ℚ) := by
      have h10 : ((10 : ℚ)) ^ k ≠ 0 := by positivity
      push_cast
      rw [div_mul_eq_mul_div, div_eq_iff h10, mul_assoc, ← pow_add]
      have h2 : 2 - k + k = 2 := by omega
      rw [h2]
      norm_num
    rw [hsplit, add_comm, Int.floor_add_int, hhalf, zero_add]
  · rw [if_neg hk]
    dsimp only
    rw [if_pos hm]
    obtain ⟨j, rfl⟩ : ∃ j, k = j + 3 := ⟨k - 3, by omega⟩
    have hsub : j + 3 - 2 = j + 1 := rfl
    rw [hsub]
    have hd2 : ((10 : Int)) ^ (j + 1) / 2 = 5 * 10 ^ j := by
      have h1 : ((10 : Int)) ^ (j + 1) = 2 * (5 * 10 ^ j) := by
        rw [pow_succ]
        ring
      rw [h1, Int.mul_ediv_cancel_left _ (by norm_num)]
    rw [hd2]
    have harg : (m : ℚ) / 10 ^ (j + 3) * 100 + 1 / 2 =
        ((m + 5 * 10 ^ j : Int) : ℚ) / ((10 ^ (j + 1) : ℕ) : ℚ) := by
      have h0 : ((10 : ℚ)) ^ j ≠ 0 := by positivity
      push_cast
      rw [pow_add, pow_add]
      field_simp
      ring
    rw [harg, Rat.floor_intCast_div_natCast]
    push_cast
    rfl

/-- The embedded quantization agrees with the spec's
"rounded half-up to 2 decimal places" on non-negative inputs. -/
theorem centsOf_spec (m : Int) (k : Nat) (hm : 0 ≤ m) :
    (centsOf m k : ℚ) / 100 = roundHalfUp2 (decValue m k) := by
  unfold roundHalfUp2 decValue
  rw [centsOf_eq_floor m k hm]

/-- C4: at the price stage, a finite non-negative numeral (plain,
exponent or underscore form alike) advances the flow to the description
stage, and the listing created at confirmation stores exactly the input
rounded half-up to two decimal places, a non-negative amount; a negative
input (`-Infinity` included) or non-numeric input (NaN included) is
rejected with the validation message and the whole state — stage
included — is unchanged.  (`+Infinity` is the one accepted non-finite
value: the stage advances but the confirmation's listing creation raises
and rolls back, storing nothing.) -/
theorem price_stage_validation_and_rounding
    (st : BotState) (tg : TgUser) (text title : String) (c : BookCondition)
    (htitle : st.session.data.title = some title)
    (htne : trimStr title ≠ "")
    (hcond : st.session.data.condition = some c) :
    (∀ m k, parsePrice text = .numeric m k → 0 ≤ m →
      (collect_price st text).state.session.stage = some .description ∧
      (collect_price st text).replies = [.askDescription] ∧
      ∀ dtext now, ∃ book : Book,
        (finish_post_flow
            (collect_description (collect_price st text).state dtext).state
            tg "confirm" now).state.db.books =
          (ensure_user st.db tg).1.books ++ [book] ∧
        book.priceCents = centsOf m k ∧
        0 ≤ book.priceCents ∧
        (book.priceCents : ℚ) / 100 = roundHalfUp2 (decValue m k)) ∧
    (parsePrice text = .nonNumeric ∨ parsePrice text = .nan ∨
        parsePrice text = .inf true ∨
        (∃ m k, parsePrice text = .numeric m k ∧ m < 0) →
      collect_price st text = ⟨st, [.invalidPrice], 0, false, false⟩) ∧
    (parsePrice text = .inf false →
      (collect_price st text).state.session.stage = some .description ∧
      ∀ dtext now,
        (finish_post_flow
            (collect_description (collect_price st text).state dtext).state
            tg "confirm" now).state.db = st.db ∧
        (finish_post_flow
            (collect_description (collect_price st text).state dtext).state
            tg "confirm" now).raised = true) := by
  refine ⟨?_, ?_, ?_⟩
  · intro m k hpt hm
    have hcp : collect_price st text =
        ⟨⟨st.db,
          { stage := some .description,
            data := { st.session.data with price := some (.fin m k) } }⟩,
         [.askDescription], 0, false, false⟩ := by
      unfold collect_price
      rw [hpt]
      dsimp only [priceAccepted]
      rw [if_neg (not_lt.mpr hm)]
    refine ⟨by rw [hcp], by rw [hcp], ?_⟩
    intro dtext now
    rw [hcp]
    unfold collect_description
    dsimp only
    unfold finish_post_flow
    rw [if_neg (by decide)]
    dsimp only
    rw [htitle, hcond]
    dsimp only
    rcases he : ensure_user st.db tg with ⟨db1, seller⟩
    have hq : quantize_price (.fin m k) = some (centsOf m k) := by
      unfold quantize_price
      dsimp only
      rw [if_neg (not_lt.mpr (centsOf_nonneg m k hm))]
    have hmk : mkBook db1.nextBookId now title
        ((SessionData.mk (some title)
            st.session.data.author (some c) (some (.fin m k))
            (some (if lowerStr (trimStr dtext) = "skip" then none
                   else some (trimStr dtext)))
            st.session.data.search_query).author.getD none) (.fin m k) c
        ((SessionData.mk (some title)
            st.session.data.author (some c) (some (.fin m k))
            (some (if lowerStr (trimStr dtext) = "skip" then none
                   else some (trimStr dtext)))
            st.session.data.search_query).description.getD none)
        seller.id =
        some
          { id := db1.nextBookId, created_at := now, title := trimStr title
            author := stripToNull (st.session.data.author.getD none)
            priceCents := centsOf m k, condition := c
            description := stripToNull
              ((some (if lowerStr (trimStr dtext) = "skip" then none
                      else some (trimStr dtext)) :
                  Option (Option String)).getD none)
            is_sold := false, seller_id := seller.id } := by
      unfold mkBook stripToNull
      dsimp only
      rw [if_neg htne, hq]
    rw [hmk]
    dsimp only
    refine ⟨_, rfl, rfl, centsOf_nonneg m k hm, centsOf_spec m k hm⟩
  · intro h
    unfold collect_price
    rcases h with h | h | h | ⟨m, k, h, hneg⟩ <;> rw [h]
    · rfl
    · rfl
    · rfl
    · dsimp only [priceAccepted]
      rw [if_pos hneg]
  · intro hpt
    have hcp : collect_price st text =
        ⟨⟨st.db,
          { stage := some .description,
            data := { st.session.data with price := some .posInf } }⟩,
         [.askDescription], 0, false, false⟩ := by
      unfold collect_price
      rw [hpt]
      dsimp only [priceAccepted]
      rw [if_neg (by decide : ¬(false = true))]
    refine ⟨by rw [hcp], ?_⟩
    intro dtext now
    rw [hcp]
    unfold collect_description
    dsimp only
    unfold finish_post_flow
    rw [if_neg (by decide)]
    dsimp only
    rw [htitle, hcond]
    dsimp only
    rcases he : ensure_user st.db tg with ⟨db1, seller⟩
    have hmk : mkBook db1.nextBookId now title
        ((SessionData.mk (some title)
            st.session.data.author (some c) (some .posInf)
            (some (if lowerStr (trimStr dtext) = "skip" then none
                   else some (trimStr dtext)))
            st.session.data.search_query).author.getD none) .posInf c
        ((SessionData.mk (some title)
            st.session.data.author (some c) (some .posInf)
            (some (if lowerStr (trimStr dtext) = "skip" then none
                   else some (trimStr dtext)))
            st.session.data.search_query).description.getD none)
        seller.id = none := by
      have hqn : quantize_price .posInf = none := rfl
      unfold mkBook stripToNull
      dsimp only
      rw [if_neg htne, hqn]
    rw [hmk]
    exact ⟨rfl, rfl⟩

/-- Witness: the input "12.345" at the price stage advances the flow and
the confirmed listing stores 1235 cents = half-up rounding of 12.345. -/
theorem price_stage_validation_and_rounding_witness :
    (collect_price priceStageState "12.345").state.session.stage =
        some Stage.description ∧
    ∃ book : Book,
      (finish_post_flow
          (collect_description (collect_price priceStageState "12.345").state
            "skip").state sellerTg "confirm" 5).state.db.books =
        (ensure_user priceStageState.db sellerTg).1.books ++ [book] ∧
      book.priceCents = centsOf 12345 3 ∧
      0 ≤ book.priceCents ∧
      (book.priceCents : ℚ) / 100 = roundHalfUp2 (decValue 12345 3) :=
  let h := (price_stage_validation_and_rounding priceStageState sellerTg
      "12.345" "Calculus" BookCondition.good rfl (by decide) rfl).1
      12345 3 (by decide) (by decide)
  ⟨h.1, h.2.2 "skip" 5⟩

/-! ### `LIKE` matching versus substring matching -/

/-- Unfolding equation of `likeMatch` for a non-wildcard head. -/
theorem likeMatch_lit (a : Char) (ps s : List Char)
    (ha : a ≠ '%') (hb : a ≠ '_') :
    likeMatch (a :: ps) s =
      (match s with
       | [] => false
       | c :: cs => a == c && likeMatch ps cs) := by
  rw [likeMatch.eq_def]
  split
  · rename_i heq
    exact absurd heq (by simp)
  · rename_i heq
    injection heq with h1 _
    exact absurd h1 ha
  · rename_i heq
    injection heq with h1 _
    exact absurd h1 hb
  · rename_i heq
    injection heq with h1 h2
    subst h1
    subst h2
    rfl

theorem nil_mem_suffixesOf (s : List Char) : [] ∈ suffixesOf s := by
  induction s with
  | nil => simp [suffixesOf]
  | cons c cs ih => simp [suffixesOf, ih]

theorem mem_suffixesOf {t s : List Char} :
    t ∈ suffixesOf s ↔ ∃ l, s = l ++ t := by
  induction s with
  | nil =>
    simp only [suffixesOf, List.mem_singleton]
    constructor
    · intro h
      subst h
      exact ⟨[], rfl⟩
    · rintro ⟨l, hl⟩
      rcases List.append_eq_nil.mp hl.symm with ⟨_, ht⟩
      exact ht
  | cons c cs ih =>
    simp only [suffixesOf, List.mem_cons]
    constructor
    · rintro (rfl | h)
      · exact ⟨[], rfl⟩
      · obtain ⟨l, rfl⟩ := ih.mp h
        exact ⟨c :: l, rfl⟩
    · rintro ⟨l, hl⟩
      cases l with
      | nil => exact Or.inl (by simpa using hl.symm)
      | cons c' l' =>
        injection hl with h1 h2
        exact Or.inr (ih.mpr ⟨l', h2⟩)

theorem segPre_iff (q : List Char) :
    ∀ s, (segPre q s = true ↔ ∃ r, s = q ++ r) := by
  induction q with
  | nil =>
    intro s
    simp [segPre]
  | cons a q ih =>
    intro s
    cases s with
    | nil =>
      simp only [segPre]
      constructor
      · intro h
        cases h
      · rintro ⟨r, hr⟩
        cases hr
    | cons c cs =>
      simp only [segPre, Bool.and_eq_true, beq_iff_eq, ih cs]
      constructor
      · rintro ⟨rfl, r, rfl⟩
        exact ⟨r, rfl⟩
      · rintro ⟨r, heq⟩
        injection heq with h1 h2
        exact ⟨h1.symm, r, h2⟩

theorem occursIn_iff (q : List Char) :
    ∀ s, (occursIn q s = true ↔ ∃ l r, s = l ++ q ++ r) := by
  intro s
  induction s with
  | nil =>
    rw [show occursIn q [] = segPre q [] from rfl, segPre_iff]
    constructor
    · rintro ⟨r, hr⟩
      exact ⟨[], r, by simp [hr]⟩
    · rintro ⟨l, r, hlr⟩
      rcases List.append_eq_nil.mp hlr.symm with ⟨hlq, hr⟩
      rcases List.append_eq_nil.mp hlq with ⟨_, hq⟩
      exact ⟨[], by simp [hq]⟩
  | cons c cs ih =>
    rw [show occursIn q (c :: cs) = (segPre q (c :: cs) || occursIn q cs)
      from rfl]
    rw [Bool.or_eq_true, segPre_iff, ih]
    constructor
    · rintro (⟨r, hr⟩ | ⟨l, r, hlr⟩)
      · exact ⟨[], r, by simp [hr]⟩
      · exact ⟨c :: l, r, by simp [hlr]⟩
    · rintro ⟨l, r, hlr⟩
      cases l with
      | nil => exact Or.inl ⟨r, by simpa using hlr⟩
      | cons c' l' =>
        injection hlr with h1 h2
        exact Or.inr ⟨l', r, h2⟩

/-- The literal-only case of a `LIKE` pattern: the wildcard-free prefix
`q` followed by `%` matches exactly the texts starting with `q`. -/
theorem likeMatch_lit_append (q : List Char) :
    ∀ t, '%' ∉ q → '_' ∉ q →
      (likeMatch (q ++ ['%']) t = true ↔ ∃ r, t = q ++ r) := by
  induction q with
  | nil =>
    intro t _ _
    constructor
    · intro _
      exact ⟨t, rfl⟩
    · intro _
      show (suffixesOf t).any (fun r => likeMatch [] r) = true
      rw [List.any_eq_true]
      exact ⟨[], nil_mem_suffixesOf t, rfl⟩
  | cons a q ih =>
    intro t hp hu
    have ha : a ≠ '%' := fun h => hp (by simp [h])
    have hb : a ≠ '_' := fun h => hu (by simp [h])
    have hp' : '%' ∉ q := fun h => hp (List.mem_cons_of_mem _ h)
    have hu' : '_' ∉ q := fun h => hu (List.mem_cons_of_mem _ h)
    rw [show (a :: q) ++ ['%'] = a :: (q ++ ['%']) from rfl,
      likeMatch_lit a _ t ha hb]
    cases t with
    | nil =>
      constructor
      · intro h
        cases h
      · rintro ⟨r, hr⟩
        cases hr
    | cons c cs =>
      simp only [Bool.and_eq_true, beq_iff_eq, ih cs hp' hu']
      constructor
      · rintro ⟨rfl, r, rfl⟩
        exact ⟨r, rfl⟩
      · rintro ⟨r, heq⟩
        injection heq with h1 h2
        exact ⟨h1.symm, r, h2⟩

/-- A wildcard-free query wrapped in `%…%` matches exactly the texts
containing it. -/
theorem likeMatch_searchTerm_iff (ql s : List Char)
    (hp : '%' ∉ ql) (hu : '_' ∉ ql) :
    likeMatch ('%' :: (ql ++ ['%'])) s = true ↔ occursIn ql s = true := by
  rw [occursIn_iff]
  show (suffixesOf s).any (fun t => likeMatch (ql ++ ['%']) t) = true ↔ _
  rw [List.any_eq_true]
  constructor
  · rintro ⟨t, hmem, hlm⟩
    obtain ⟨l, rfl⟩ := mem_suffixesOf.mp hmem
    obtain ⟨r, rfl⟩ := (likeMatch_lit_append ql t hp hu).mp hlm
    exact ⟨l, r, by simp⟩
  · rintro ⟨l, r, rfl⟩
    refine ⟨ql ++ r, mem_suffixesOf.mpr ⟨l, by simp⟩, ?_⟩
    exact (likeMatch_lit_append ql _ hp hu).mpr ⟨r, rfl⟩

theorem bool_eq_of_true_iff {a b : Bool} (h : (a = true) ↔ (b = true)) :
    a = b := by
  cases a <;> cases b <;> simp_all

/-- On wildcard-free queries, the `LIKE` filter of `search_books` is the
spec's substring match. -/
theorem matchesQuery_eq_substringMatch (q : String)
    (hw : wildcardFree (lowerStr (trimStr q))) (b : Book) :
    matchesQuery q b = substringMatch q b := by
  obtain ⟨hp, hu⟩ := hw
  have hfield : ∀ s : String,
      likeMatch (searchTerm q) (lowerStr s).toList =
        occursIn (lowerStr (trimStr q)).toList (lowerStr s).toList := by
    intro s
    exact bool_eq_of_true_iff (likeMatch_searchTerm_iff _ _ hp hu)
  have h2 : (match b.author with
      | none => false
      | some s => likeMatch (searchTerm q) (lowerStr s).toList) =
      (match b.author with
      | none => false
      | some s =>
        occursIn (lowerStr (trimStr q)).toList (lowerStr s).toList) := by
    cases b.author
    · rfl
    · exact hfield _
  have h3 : (match b.description with
      | none => false
      | some s => likeMatch (searchTerm q) (lowerStr s).toList) =
      (match b.description with
      | none => false
      | some s =>
        occursIn (lowerStr (trimStr q)).toList (lowerStr s).toList) := by
    cases b.description
    · rfl
    · exact hfield _
  unfold matchesQuery substringMatch optLike
  dsimp only
  rw [hfield b.title, h2, h3]

/-- C9: the query is interpolated into the `LIKE` pattern with `%` and
`_` unescaped: the single-character query `"%"` matches every listing
(so search returns every unsold listing) even though `%` is not a literal
substring of the fixture's fields, and `"_"` matches any single
character (it matches "abc") rather than a literal underscore. -/
theorem search_like_wildcards_unescaped :
    (∀ b : Book, matchesQuery "%" b = true) ∧
    (∀ (db : DB) (page pp : Nat),
      (search_books db "%" page pp).2.1 =
        (db.books.filter (fun b => !b.is_sold)).length) ∧
    substringMatch "%" (mkCatBook 1 1 "Calculus, 8th Edition") = false ∧
    substringMatch "%" (mkCatBook 2 2 "abc") = false ∧
    matchesQuery "_" (mkCatBook 2 2 "abc") = true ∧
    substringMatch "_" (mkCatBook 2 2 "abc") = false := by
  have hperc : ∀ b : Book, matchesQuery "%" b = true := by
    intro b
    unfold matchesQuery
    have hst : searchTerm "%" = ['%', '%', '%'] := by decide
    have h : likeMatch (searchTerm "%") (lowerStr b.title).toList = true := by
      rw [hst]
      show (suffixesOf _).any (fun t => likeMatch ['%', '%'] t) = true
      rw [List.any_eq_true]
      exact ⟨[], nil_mem_suffixesOf _, by decide⟩
    simp only [h, Bool.true_or]
  refine ⟨hperc, ?_, by decide, by decide, by decide, by decide⟩
  intro db page pp
  unfold search_books
  rw [if_neg (by decide)]
  dsimp only
  rw [if_neg Bool.false_ne_true]
  show (db.books.filter fun b => matchesQuery "%" b && !b.is_sold).length = _
  congr 1
  apply List.filter_congr
  intro b _
  rw [hperc b, Bool.true_and]

/-- C5 counterexample: the non-empty query `"%"` — not a literal
substring of any field of the two fixture listings — nevertheless matches
both of them, so "matches exactly when the lowercased query is a
substring" fails as stated. -/
theorem search_substring_claim_false :
    (search_books searchFixtureDB "%" 1 10).2.1 = 2 ∧
    substringMatch "%" (mkCatBook 1 1 "Calculus, 8th Edition") = false ∧
    substringMatch "%" (mkCatBook 2 2 "abc") = false := by
  decide

/-- C5 (amended): for queries free of the `LIKE` wildcards `%` and `_`,
search matches a listing exactly when the lowercased query is a substring
of the lowercased title, author or description, sold listings excluded;
"calc" matches "Calculus, 8th Edition"; a blank query returns zero items
and zero total without issuing any storage query. -/
theorem search_substring_match_wildcard_free (q : String)
    (hw : wildcardFree (lowerStr (trimStr q))) (hne : trimStr q ≠ "") :
    (∀ b : Book, matchesQuery q b = substringMatch q b) ∧
    (∀ (db : DB) (page pp : Nat),
      (search_books db q page pp).2.1 =
        (db.books.filter
          (fun b => substringMatch q b && !b.is_sold)).length) ∧
    (∀ (db : DB) (q' : String) (page pp : Nat), trimStr q' = "" →
      search_books db q' page pp = ([], 0, 1) ∧
      search_touches_storage q' = false) ∧
    matchesQuery "calc" (mkCatBook 1 1 "Calculus, 8th Edition") = true ∧
    substringMatch "calc" (mkCatBook 1 1 "Calculus, 8th Edition") = true := by
  refine ⟨matchesQuery_eq_substringMatch q hw, ?_, ?_, by decide, by decide⟩
  · intro db page pp
    unfold search_books
    rw [if_neg hne]
    dsimp only
    rw [if_neg Bool.false_ne_true]
    show (db.books.filter fun b => matchesQuery q b && !b.is_sold).length = _
    congr 1
    apply List.filter_congr
    intro b _
    rw [matchesQuery_eq_substringMatch q hw b]
  · intro db q' page pp hq'
    constructor
    · unfold search_books
      rw [if_pos hq']
    · unfold search_touches_storage
      rw [hq']
      decide

/-- Witness: the wildcard-free query "calc" on the fixture catalog. -/
theorem search_substring_match_wildcard_free_witness :
    matchesQuery "calc" (mkCatBook 2 2 "abc") =
        substringMatch "calc" (mkCatBook 2 2 "abc") ∧
    (search_books searchFixtureDB "calc" 1 10).2.1 =
      (searchFixtureDB.books.filter
        (fun b => substringMatch "calc" b && !b.is_sold)).length ∧
    matchesQuery "calc" (mkCatBook 1 1 "Calculus, 8th Edition") = true :=
  let h := search_substring_match_wildcard_free "calc"
    (by unfold wildcardFree; decide) (by decide)
  ⟨h.1 _, h.2.1 searchFixtureDB 1 10, h.2.2.2.1⟩

/-! ### Pagination arithmetic and ordering -/

/-- `max(1, (total + per_page - 1) // per_page)` is the spec's
`max(1, ceil(total / per_page))`. -/
theorem totalPagesOf_eq_ceil (t pp : Nat) (hpp : 1 ≤ pp) :
    (totalPagesOf t pp : Int) = max 1 ⌈(t : ℚ) / (pp : ℚ)⌉ := by
  unfold totalPagesOf
  by_cases ht : t = 0
  · subst ht
    rw [if_pos rfl]
    norm_num
  · rw [if_neg ht]
    have hpp0 : 0 < pp := hpp
    have hppQ : (0 : ℚ) < (pp : ℚ) := by exact_mod_cast hpp0
    obtain ⟨q, r, hq, hrr, hdm⟩ :
        ∃ q r, (t - 1) / pp = q ∧ (t - 1) % pp = r ∧ pp * q + r = t - 1 :=
      ⟨(t - 1) / pp, (t - 1) % pp, rfl, rfl, Nat.div_add_mod _ _⟩
    have hml : r < pp := hrr ▸ Nat.mod_lt _ hpp0
    have hd : (t + pp - 1) / pp = q + 1 := by
      have h1 : t + pp - 1 = (t - 1) + pp := by omega
      rw [h1, Nat.add_div_right _ hpp0, hq]
    have hceil : ⌈(t : ℚ) / (pp : ℚ)⌉ = ((q + 1 : ℕ) : Int) := by
      rw [Int.ceil_eq_iff]
      constructor
      · rw [show (((q + 1 : ℕ) : Int) : ℚ) - 1 = (q : ℚ) by push_cast; ring]
        rw [lt_div_iff hppQ]
        have hnat : q * pp < t := by
          have h2 : q * pp = pp * q := Nat.mul_comm _ _
          omega
        exact_mod_cast hnat
      · rw [div_le_iff hppQ]
        have hnat : t ≤ (q + 1) * pp := by
          have h2 : (q + 1) * pp = pp * q + pp := by ring
          omega
        exact_mod_cast hnat
    rw [hceil, hd]
    rw [Nat.max_eq_right (by omega)]
    rw [max_eq_right (by exact_mod_cast Nat.le_add_left 1 q)]

theorem sortLaterFirst_sorted (l : List Book) :
    List.Sorted laterFirst (sortLaterFirst l) :=
  List.sorted_insertionSort laterFirst l

theorem sortLaterFirst_length (l : List Book) :
    (sortLaterFirst l).length = l.length :=
  (List.perm_insertionSort laterFirst l).length_eq

theorem pageSlice_beyond (rows : List Book) (page pp : Nat)
    (h : rows.length ≤ (page - 1) * pp) : pageSlice rows page pp = [] := by
  unfold pageSlice
  rw [List.drop_eq_nil_of_le h, List.take_nil]

/-- A page index strictly beyond `totalPagesOf` starts past the row
count. -/
theorem length_le_of_page_gt (t pp page : Nat) (hpp : 1 ≤ pp)
    (hgt : totalPagesOf t pp < page) : t ≤ (page - 1) * pp := by
  unfold totalPagesOf at hgt
  by_cases ht : t = 0
  · subst ht
    exact Nat.zero_le _
  · rw [if_neg ht] at hgt
    have hqle : (t + pp - 1) / pp ≤ page - 1 := by
      have := le_max_right 1 ((t + pp - 1) / pp)
      omega
    have h1 : t ≤ ((t + pp - 1) / pp) * pp := by
      have hdm := Nat.div_add_mod (t + pp - 1) pp
      have hml : (t + pp - 1) % pp < pp := Nat.mod_lt _ (by omega)
      have hc : ((t + pp - 1) / pp) * pp = pp * ((t + pp - 1) / pp) :=
        Nat.mul_comm _ _
      omega
    exact le_trans h1 (Nat.mul_le_mul_right pp hqle)

/-- The shared pagination properties of one paged catalog query. -/
theorem runPagedQuery_spec (rows : List Book) (page pp : Nat)
    (hpp : 1 ≤ pp) :
    ((runPagedQuery rows page pp).2.2 : Int) =
        max 1 ⌈((runPagedQuery rows page pp).2.1 : ℚ) / (pp : ℚ)⌉ ∧
    ((runPagedQuery rows page pp).2.1 = 0 →
      (runPagedQuery rows page pp).2.2 = 1 ∧
      (runPagedQuery rows page pp).1 = []) ∧
    ((runPagedQuery rows page pp).2.2 < page →
      (runPagedQuery rows page pp).1 = []) ∧
    List.Sorted laterFirst (runPagedQuery rows page pp).1 := by
  refine ⟨totalPagesOf_eq_ceil rows.length pp hpp, ?_, ?_, ?_⟩
  · intro h0
    have hlen : rows.length = 0 := h0
    constructor
    · show totalPagesOf rows.length pp = 1
      rw [hlen]
      rfl
    · show pageSlice (sortLaterFirst rows) page pp = []
      have hsl : (sortLaterFirst rows).length = 0 := by
        rw [sortLaterFirst_length, hlen]
      rw [List.length_eq_zero.mp hsl]
      unfold pageSlice
      simp
  · intro hlt
    show pageSlice (sortLaterFirst rows) page pp = []
    apply pageSlice_beyond
    rw [sortLaterFirst_length]
    exact length_le_of_page_gt rows.length pp page hpp hlt
  · show List.Sorted laterFirst (pageSlice (sortLaterFirst rows) page pp)
    unfold pageSlice
    exact List.Pairwise.sublist
      ((List.take_sublist _ _).trans (List.drop_sublist _ _))
      (sortLaterFirst_sorted rows)

/-- C2 counterexample: on two listings sharing one `created_at`
timestamp, both relative orders satisfy the full `ORDER BY created_at
DESC` contract (permutation plus sortedness — the query names no
secondary key), and they produce different first pages; so the order of
equal-timestamp listings is engine-dependent, not fixed by the program
to insertion order. -/
theorem pagination_tie_order_not_guaranteed :
    IsEngineOrdering tieRows tieRows ∧
    IsEngineOrdering tieRows tieRowsSwapped ∧
    pageSlice tieRowsSwapped 1 10 ≠ pageSlice tieRows 1 10 := by
  refine ⟨⟨?_, ?_⟩, ⟨?_, ?_⟩, ?_⟩
  · decide
  · decide
  · decide
  · decide
  · decide

/-- C2: browse and search return `(items, total, totalPages)` with
`totalPages = max(1, ceil(total/perPage))`; an empty catalog yields
`totalPages = 1` and no items; any page beyond `totalPages` yields an
empty page with the same totals and is never an error (the functions are
total); items are ordered by creation time descending, the model's
ordering being one admissible engine ordering of the filtered rows (the
query fixes no tie order, see `pagination_tie_order_not_guaranteed`);
every admissible engine ordering preserves the row count and yields
sorted pages of at most `perPage` items that are empty beyond
`totalPages`; and on the 23-listing fixture (all timestamps distinct,
so the ordering is unique) with `perPage = 10`, page 1 has 10 items,
page 3 has 3, page 4 is empty with the same `total = 23`,
`totalPages = 3`. -/
theorem pagination_formula_and_ordering (db : DB) (q : String)
    (page pp : Nat) (hpage : 1 ≤ page) (hpp : 1 ≤ pp) :
    ((paginate_books db page pp).2.2 : Int) =
        max 1 ⌈((paginate_books db page pp).2.1 : ℚ) / (pp : ℚ)⌉ ∧
    ((paginate_books db page pp).2.1 = 0 →
      (paginate_books db page pp).2.2 = 1 ∧
      (paginate_books db page pp).1 = []) ∧
    ((paginate_books db page pp).2.2 < page →
      (paginate_books db page pp).1 = []) ∧
    (paginate_books db page pp).2 = (paginate_books db 1 pp).2 ∧
    List.Sorted laterFirst (paginate_books db page pp).1 ∧
    IsEngineOrdering (db.books.filter (fun b => !b.is_sold))
      (sortLaterFirst (db.books.filter (fun b => !b.is_sold))) ∧
    (∀ rows ordered, IsEngineOrdering rows ordered →
      ordered.length = rows.length ∧
      List.Sorted laterFirst (pageSlice ordered page pp) ∧
      (pageSlice ordered page pp).length ≤ pp ∧
      (totalPagesOf rows.length pp < page →
        pageSlice ordered page pp = [])) ∧
    ((search_books db q page pp).2.2 : Int) =
        max 1 ⌈((search_books db q page pp).2.1 : ℚ) / (pp : ℚ)⌉ ∧
    ((search_books db q page pp).2.2 < page →
      (search_books db q page pp).1 = []) ∧
    (search_books db q page pp).2 = (search_books db q 1 pp).2 ∧
    List.Sorted laterFirst (search_books db q page pp).1 ∧
    (paginate_books exampleDB23 1 10).2.1 = 23 ∧
    (paginate_books exampleDB23 1 10).2.2 = 3 ∧
    (paginate_books exampleDB23 1 10).1.length = 10 ∧
    (paginate_books exampleDB23 3 10).1.length = 3 ∧
    (paginate_books exampleDB23 4 10).1 = [] ∧
    (paginate_books exampleDB23 4 10).2.1 = 23 ∧
    (paginate_books exampleDB23 4 10).2.2 = 3 ∧
    paginate_books emptyDB 1 10 = ([], 0, 1) := by
  have hb := runPagedQuery_spec
    (db.books.filter (fun b => !b.is_sold)) page pp hpp
  refine ⟨hb.1, hb.2.1, hb.2.2.1, rfl, hb.2.2.2,
    ⟨(List.perm_insertionSort laterFirst _).symm,
      sortLaterFirst_sorted _⟩, ?_, ?_, ?_, ?_, ?_,
    by decide, by decide, by decide, by decide, by decide, by decide,
    by decide, by decide⟩
  · rintro rows ordered ⟨hperm, hsort⟩
    refine ⟨hperm.length_eq.symm, ?_, ?_, ?_⟩
    · unfold pageSlice
      exact List.Pairwise.sublist
        ((List.take_sublist _ _).trans (List.drop_sublist _ _)) hsort
    · unfold pageSlice
      rw [List.length_take]
      exact Nat.min_le_left _ _
    · intro hgt
      apply pageSlice_beyond
      rw [← hperm.length_eq]
      exact length_le_of_page_gt rows.length pp page hpp hgt
  · by_cases hq : trimStr q = ""
    · have hs : ∀ pg, search_books db q pg pp = ([], 0, 1) := by
        intro pg
        unfold search_books
        rw [if_pos hq]
      rw [hs page]
      norm_num
    · have hs := runPagedQuery_spec
        (db.books.filter (fun b => matchesQuery q b && !b.is_sold)) page pp hpp
      have heq : search_books db q page pp =
          runPagedQuery
            (db.books.filter (fun b => matchesQuery q b && !b.is_sold))
            page pp := by
        unfold search_books
        rw [if_neg hq, if_neg Bool.false_ne_true]
      rw [heq]
      exact hs.1
  · by_cases hq : trimStr q = ""
    · intro _
      have hs : search_books db q page pp = ([], 0, 1) := by
        unfold search_books
        rw [if_pos hq]
      rw [hs]
    · have hs := runPagedQuery_spec
        (db.books.filter (fun b => matchesQuery q b && !b.is_sold)) page pp hpp
      have heq : search_books db q page pp =
          runPagedQuery
            (db.books.filter (fun b => matchesQuery q b && !b.is_sold))
            page pp := by
        unfold search_books
        rw [if_neg hq, if_neg Bool.false_ne_true]
      rw [heq]
      exact hs.2.2.1
  · by_cases hq : trimStr q = ""
    · have hs : ∀ pg, search_books db q pg pp = ([], 0, 1) := by
        intro pg
        unfold search_books
        rw [if_pos hq]
      rw [hs page, hs 1]
    · have heq : ∀ pg, search_books db q pg pp =
          runPagedQuery
            (db.books.filter (fun b => matchesQuery q b && !b.is_sold))
            pg pp := by
        intro pg
        unfold search_books
        rw [if_neg hq, if_neg Bool.false_ne_true]
      rw [heq page, heq 1]
      rfl
  · by_cases hq : trimStr q = ""
    · have hs : search_books db q page pp = ([], 0, 1) := by
        unfold search_books
        rw [if_pos hq]
      rw [hs]
      exact List.sorted_nil
    · have hs := runPagedQuery_spec
        (db.books.filter (fun b => matchesQuery q b && !b.is_sold)) page pp hpp
      have heq : search_books db q page pp =
          runPagedQuery
            (db.books.filter (fun b => matchesQuery q b && !b.is_sold))
            page pp := by
        unfold search_books
        rw [if_neg hq, if_neg Bool.false_ne_true]
      rw [heq]
      exact hs.2.2.2

/-- Witness for the pagination theorem at `page = 4`, `perPage = 10` on
the 23-listing fixture. -/
theorem pagination_formula_and_ordering_witness :
    ((paginate_books exampleDB23 4 10).2.2 : Int) =
        max 1 ⌈((paginate_books exampleDB23 4 10).2.1 : ℚ) / (10 : ℚ)⌉ ∧
    (paginate_books exampleDB23 4 10).1 = [] :=
  let h := pagination_formula_and_ordering exampleDB23 "calc" 4 10
    (by decide) (by decide)
  ⟨h.1, h.2.2.1 (by decide)⟩

end BookSwap
